import Mathlib

/-!
# Chunked Upload Session Manager — verification of the spec against the source

Shallow embedding of the chunked video-upload subsystem of the repository:

* `src/src/pages/api/video/upload/init.ts`   — session initializer (`POST`,
  `sanitizeFileName`, `getFileExtension`, `cleanupExpiredSessions`)
* `src/unnamed/part_007`                     — chunk receiver (`POST`,
  `saveChunkLocally`, `saveChunkToMemory`, `cleanupExpiredChunks`)
* `src/src/pages/api/video/upload/complete.ts` — completion handler (`POST`,
  `assembleChunksLocally`, `assembleChunksToCloud`)
* `src/src/pages/api/video/upload/abort.ts`  — abort handler (`POST`,
  `cleanupLocalFiles`, `cleanupMemoryChunks`)
* `src/src/lib/chunked-upload.ts`            — client-side chunk splitting

JavaScript `Map` objects are modelled as association lists in insertion
order (`mapGet`/`mapSet`/`mapDelete`/`mapHas`), the local filesystem as an
association list from path to byte list, and `Date.now()` / filesystem
faults as explicit parameters.  Byte sequences are `List Nat`.
-/

/-! ## JavaScript `Map` model (association lists in insertion order) -/

def mapHas {α β : Type} [DecidableEq α] (m : List (α × β)) (k : α) : Bool :=
  m.any (fun p => p.1 = k)

def mapGet {α β : Type} [DecidableEq α] (m : List (α × β)) (k : α) : Option β :=
  (m.find? (fun p => p.1 = k)).map Prod.snd

/-- `Map.set`: overwrite in place if the key is present, else append. -/
def mapSet {α β : Type} [DecidableEq α] (m : List (α × β)) (k : α) (v : β) :
    List (α × β) :=
  if mapHas m k then m.map (fun p => if p.1 = k then (k, v) else p)
  else m ++ [(k, v)]

def mapDelete {α β : Type} [DecidableEq α] (m : List (α × β)) (k : α) :
    List (α × β) :=
  m.filter (fun p => ¬ p.1 = k)

/-! ## Filename handling (`init.ts`) -/

/-- The character class `[<>:"/\\|?*]` removed by `sanitizeFileName`. -/
def isBadFileChar (c : Char) : Bool :=
  c = '<' ∨ c = '>' ∨ c = ':' ∨ c = '"' ∨ c = '/' ∨ c = '\\' ∨ c = '|' ∨ c = '?' ∨ c = '*'

/-- `.replace(/\.\.+/g, '.')`: every maximal run of two or more dots becomes a
single dot (runs of one are unchanged, so all maximal runs collapse to one). -/
def collapseDots : List Char → List Char
  | [] => []
  | [c] => [c]
  | c1 :: c2 :: rest =>
    if c1 = '.' ∧ c2 = '.' then collapseDots (c2 :: rest)
    else c1 :: collapseDots (c2 :: rest)

/-- Whitespace removed by JavaScript `String.prototype.trim` (ASCII part). -/
def isJsSpace (c : Char) : Bool :=
  c = ' ' ∨ c = '\t' ∨ c = '\n' ∨ c = '\r' ∨ c = '\x0b' ∨ c = '\x0c'

def trimChars (l : List Char) : List Char :=
  ((l.dropWhile isJsSpace).reverse.dropWhile isJsSpace).reverse

/-- `title?.trim()` etc. -/
def jsTrim (s : String) : String :=
  ⟨trimChars s.data⟩

/-- `sanitizeFileName` from `init.ts`: strip `[<>:"/\\|?*]`, collapse dot
runs, strip leading dots, trim, truncate to 255 characters. -/
def sanitizeFileName (s : String) : String :=
  ⟨(trimChars ((collapseDots (s.data.filter (fun c => ¬ isBadFileChar c))).dropWhile
      (fun c => c = '.'))).take 255⟩

/-- Suffix of the character list starting at the last `'.'` (inclusive);
empty if there is no dot.  Models `filename.substring(filename.lastIndexOf('.'))`. -/
def lastDotSuffix : List Char → List Char
  | [] => []
  | c :: rest =>
    let t := lastDotSuffix rest
    if t = [] then (if c = '.' then c :: rest else []) else t

/-- `getFileExtension` from `init.ts`. -/
def getFileExtension (s : String) : String :=
  ⟨lastDotSuffix s.data⟩

/-! ## Data model -/

/-- One entry of a session's `chunks` map (the received-chunk ledger). -/
structure ChunkInfo where
  filename : String
  size : Nat
  uploadedAt : Nat
  isCloudStorage : Bool
deriving DecidableEq

/-- An `uploadSessions` entry as created by `init.ts`.  `totalChunks` is an
`Int` because the chunk receiver overwrites it with the client-declared
`parseInt` value, which may be negative.  Chunk-ledger keys are `Int` for
the same reason. -/
structure Session where
  filename : String
  finalFilename : String
  fileSize : Nat
  contentType : String
  title : String
  tags : String
  chunks : List (Int × ChunkInfo)
  totalChunks : Int
  uploadedChunks : Nat
  createdAt : Nat
  lastActivity : Nat
  useCloudStorage : Bool
  serverlessWarning : Bool
deriving DecidableEq

/-- A `globalThis.chunkStorage` entry (`saveChunkToMemory`). -/
structure MemChunk where
  data : List Nat
  uploadedAt : Nat
  size : Nat
  type : String
deriving DecidableEq

/-- Server-held state: the session table, the in-memory chunk store, and the
local filesystem (path ↦ bytes). -/
structure ServerState where
  uploadSessions : List (String × Session)
  chunkStorage : List (String × MemChunk)
  files : List (String × List Nat)
deriving DecidableEq

def emptyState : ServerState :=
  { uploadSessions := [], chunkStorage := [], files := [] }

def TEMP_DIR : String := "./public/uploads/temp"

def UPLOAD_DIR : String := "./public/uploads/videos"

/-- `join(TEMP_DIR, name)`. -/
def tempPath (name : String) : String :=
  TEMP_DIR ++ "/" ++ name

/-- `join(UPLOAD_DIR, name)`. -/
def videoPath (name : String) : String :=
  UPLOAD_DIR ++ "/" ++ name

/-! ## Session initializer (`init.ts`, enhanced handler) -/

structure InitReq where
  filename : String
  fileSize : Nat
  contentType : String
  title : String
  tags : String
deriving DecidableEq

structure InitResult where
  status : Nat
  success : Bool
  message : String
  uploadId : Option String
deriving DecidableEq

/-- The 2GB hard limit from `init.ts`. -/
def maxSize : Nat := 2 * 1024 * 1024 * 1024

/-- Ceiling division, the value of `Math.ceil(a / b)` on naturals. -/
def ceilDiv (a b : Nat) : Nat := (a + b - 1) / b

/-- `cleanupExpiredSessions`: drop sessions with `createdAt < now - 1h`. -/
def cleanupExpiredSessions (t : List (String × Session)) (now : Nat) :
    List (String × Session) :=
  t.filter (fun p => ¬ p.2.createdAt < now - 60 * 60 * 1000)

/-- The `POST` handler of `init.ts`.  `now` models `Date.now()`, `uploadId`
the value of `generateUploadId()` (a random 16-character string, hence
nonempty), `useCloud` the `USE_CLOUD_STORAGE` constant, `vercelProd` the
`process.env.VERCEL_ENV === 'production'` test and `dirOk` success of
`ensureLocalDirectories`. -/
def initPost (st : ServerState) (r : InitReq) (now : Nat) (uploadId : String)
    (useCloud vercelProd dirOk : Bool) : InitResult × ServerState :=
  if r.filename = "" ∨ r.fileSize = 0 ∨ jsTrim r.title = "" then
    ({ status := 400, success := false,
       message := "Missing required fields: filename, fileSize, title",
       uploadId := none }, st)
  else if r.fileSize > maxSize then
    ({ status := 413, success := false,
       message := "File too large. Maximum size is 2GB", uploadId := none }, st)
  else
    let sessions1 := cleanupExpiredSessions st.uploadSessions now
    if ¬ useCloud ∧ ¬ dirOk then
      ({ status := 500, success := false,
         message := "Failed to prepare local upload directories",
         uploadId := none }, { st with uploadSessions := sessions1 })
    else
      let sanitizedFilename := sanitizeFileName r.filename
      let fileExtension := getFileExtension sanitizedFilename
      let finalFilename := uploadId ++ fileExtension
      let sess : Session :=
        { filename := sanitizedFilename
          finalFilename := finalFilename
          fileSize := r.fileSize
          contentType := r.contentType
          title := jsTrim r.title
          tags := jsTrim r.tags
          chunks := []
          totalChunks := Int.ofNat (ceilDiv r.fileSize (5 * 1024 * 1024))
          uploadedChunks := 0
          createdAt := now
          lastActivity := now
          useCloudStorage := useCloud
          serverlessWarning := vercelProd }
      ({ status := 200, success := true,
         message := "Chunked upload initialized successfully",
         uploadId := some uploadId },
       { st with uploadSessions := mapSet sessions1 uploadId sess })

/-! ## Chunk receiver (`src/unnamed/part_007`) -/

structure ChunkReq where
  uploadId : String
  chunkIndex : Int
  totalChunks : Int
  chunk : List Nat
  chunkType : String
  now : Nat
  writeOk : Bool
deriving DecidableEq

structure ChunkResult where
  status : Nat
  success : Bool
  message : String
  uploadedChunks : Option Nat
  totalChunks : Option Int
  progress : Option Nat
deriving DecidableEq

/-- `Math.round((u / t) * 100)` for the positive totals at which the
receiver evaluates it, as exact rational rounding (half up). -/
def progressOf (u : Nat) (t : Int) : Nat :=
  (200 * u + t.toNat) / (2 * t.toNat)

/-- `cleanupExpiredChunks`: drop memory chunks with `uploadedAt < now - 1h`. -/
def cleanupExpiredChunks (storage : List (String × MemChunk)) (now : Nat) :
    List (String × MemChunk) :=
  storage.filter (fun p => ¬ p.2.uploadedAt < now - 60 * 60 * 1000)

/-- Chunk key used by `saveChunkToMemory`. -/
def memChunkKey (uploadId : String) (chunkIndex : Int) : String :=
  uploadId ++ "_" ++ toString chunkIndex

/-- Chunk filename used by `saveChunkLocally`. -/
def chunkFilename (uploadId : String) (chunkIndex : Int) : String :=
  uploadId ++ "_chunk_" ++ toString chunkIndex

/-- The `POST` handler of the enhanced chunk receiver (`part_007`).
`r.now` models `Date.now()` during the request and `r.writeOk` success of
the local `writeFile`; the in-memory store cannot fail. -/
def chunkPost (st : ServerState) (r : ChunkReq) : ChunkResult × ServerState :=
  if r.uploadId = "" then
    ({ status := 400, success := false,
       message := "Missing required fields: uploadId, chunkIndex, totalChunks, chunk",
       uploadedChunks := none, totalChunks := none, progress := none }, st)
  else
    match mapGet st.uploadSessions r.uploadId with
    | none =>
      ({ status := 404, success := false,
         message := "Invalid or expired upload session. This may be due to serverless function isolation. Consider using external session storage.",
         uploadedChunks := none, totalChunks := none, progress := none }, st)
    | some s0 =>
      -- session.lastActivity = Date.now()
      let s1 := { s0 with lastActivity := r.now }
      -- if (session.totalChunks === 0) session.totalChunks = totalChunks
      let s2 := if s1.totalChunks = 0 then { s1 with totalChunks := r.totalChunks } else s1
      -- mismatch: update to the most recent value (logged, not fatal)
      let s3 := if s2.totalChunks ≠ r.totalChunks then { s2 with totalChunks := r.totalChunks } else s2
      if r.chunkIndex < 0 ∨ r.chunkIndex ≥ r.totalChunks then
        ({ status := 400, success := false, message := "Invalid chunk index",
           uploadedChunks := none, totalChunks := none, progress := none },
         { st with uploadSessions := mapSet st.uploadSessions r.uploadId s3 })
      else if mapHas s3.chunks r.chunkIndex then
        let s4 := { s3 with lastActivity := r.now }
        ({ status := 200, success := true,
           message := "Chunk already uploaded (idempotent)",
           uploadedChunks := some s4.uploadedChunks,
           totalChunks := some s4.totalChunks,
           progress := some (progressOf s4.uploadedChunks s4.totalChunks) },
         { st with uploadSessions := mapSet st.uploadSessions r.uploadId s4 })
      else if s3.useCloudStorage then
        let key := memChunkKey r.uploadId r.chunkIndex
        let storage1 := cleanupExpiredChunks st.chunkStorage r.now
        let storage2 := mapSet storage1 key
          { data := r.chunk, uploadedAt := r.now, size := r.chunk.length,
            type := r.chunkType }
        let info : ChunkInfo :=
          { filename := key, size := r.chunk.length, uploadedAt := r.now,
            isCloudStorage := true }
        let chunks1 := mapSet s3.chunks r.chunkIndex info
        let s4 :=
          { s3 with
            chunks := chunks1
            uploadedChunks := chunks1.length
            lastActivity := r.now }
        ({ status := 200, success := true,
           message := "Chunk " ++ toString (r.chunkIndex + 1) ++ "/" ++
             toString r.totalChunks ++ " uploaded successfully",
           uploadedChunks := some s4.uploadedChunks,
           totalChunks := some s4.totalChunks,
           progress := some (progressOf s4.uploadedChunks s4.totalChunks) },
         { st with uploadSessions := mapSet st.uploadSessions r.uploadId s4,
                   chunkStorage := storage2 })
      else if ¬ r.writeOk then
        ({ status := 500, success := false, message := "Failed to save chunk",
           uploadedChunks := none, totalChunks := none, progress := none },
         { st with uploadSessions := mapSet st.uploadSessions r.uploadId s3 })
      else
        let fname := chunkFilename r.uploadId r.chunkIndex
        let files1 := mapSet st.files (tempPath fname) r.chunk
        let info : ChunkInfo :=
          { filename := fname, size := r.chunk.length, uploadedAt := r.now,
            isCloudStorage := false }
        let chunks1 := mapSet s3.chunks r.chunkIndex info
        let s4 :=
          { s3 with
            chunks := chunks1
            uploadedChunks := chunks1.length
            lastActivity := r.now }
        ({ status := 200, success := true,
           message := "Chunk " ++ toString (r.chunkIndex + 1) ++ "/" ++
             toString r.totalChunks ++ " uploaded successfully",
           uploadedChunks := some s4.uploadedChunks,
           totalChunks := some s4.totalChunks,
           progress := some (progressOf s4.uploadedChunks s4.totalChunks) },
         { st with uploadSessions := mapSet st.uploadSessions r.uploadId s4,
                   files := files1 })

/-! ## Completion handler (`complete.ts`) -/

/-- Flavour of a failed `writeFile` (the storage fault oracle). -/
inductive WriteErr
  | enospc
  | other (msg : String)
deriving DecidableEq

/-- Errors thrown inside the assembly functions of `complete.ts`.  Each
constructor records which `throw` site it models; `classifyAsmError` below
reproduces the message classification of the surrounding `POST` catch. -/
inductive AsmError
  /-- `Missing chunk ${i}` (ledger entry absent). -/
  | missingChunk (i : Nat)
  /-- `readFile` threw for chunk `i` (temp file absent or unreadable). -/
  | readFailed (i : Nat)
  /-- `writeFile` of the final artifact threw `ENOSPC`. -/
  | enospc
  /-- `writeFile` of the final artifact threw some other storage error. -/
  | writeOther (msg : String)
  /-- Cloud path: `Chunk data not found for ${chunkKey}`. -/
  | chunkDataNotFound (key : String)
  /-- Cloud path: `No chunk data found for assembly`. -/
  | noData
  /-- Cloud fallback: `Fallback local storage failed: ...`. -/
  | fallbackFailed (w : WriteErr)
  /-- Cloud path, non-Vercel branch: `this.fallbackToLocalAssembly` throws a
  `TypeError` because `this` is `undefined` in an ES module function call. -/
  | devFallbackTypeError
deriving DecidableEq

/-- Messages produced by the thrown errors, as matched by the completion
`POST` catch block (`includes('Missing chunk')`, `includes('ENOSPC')`).
`WriteErr.other` models write errors whose text contains neither magic
substring. -/
def classifyAsmError : AsmError → String
  | .missingChunk _ => "Upload incomplete - some chunks are missing"
  | .readFailed _ => "ENOENT: no such file or directory"
  | .enospc => "Insufficient storage space to complete upload"
  | .writeOther msg => msg
  | .chunkDataNotFound key =>
      "Chunk data not found for " ++ key ++ ". This may be due to serverless function memory isolation."
  | .noData => "No chunk data found for assembly"
  | .fallbackFailed .enospc => "Insufficient storage space to complete upload"
  | .fallbackFailed (.other msg) => "Fallback local storage failed: " ++ msg
  | .devFallbackTypeError =>
      "Cannot read properties of undefined (reading 'fallbackToLocalAssembly')"

/-- Read-chunks loop of `assembleChunksLocally` over the given index list
(the code iterates `i = 0 .. totalChunks-1`). -/
def collectLocalChunks (files : List (String × List Nat))
    (chunks : List (Int × ChunkInfo)) : List Nat → Except AsmError (List (List Nat))
  | [] => .ok []
  | i :: rest =>
    match mapGet chunks (Int.ofNat i) with
    | none => .error (.missingChunk i)
    | some info =>
      match mapGet files (tempPath info.filename) with
      | none => .error (.readFailed i)
      | some bytes =>
        match collectLocalChunks files chunks rest with
        | .error e => .error e
        | .ok parts => .ok (bytes :: parts)

/-- `assembleChunksLocally`: read chunks in index order, concatenate, write
the final artifact (fault oracle `writeErr`), then unlink the temp chunks,
tolerating failures (`unlinkFail` is the set of paths whose `unlink`
throws).  Returns the file URL and the new filesystem. -/
def assembleChunksLocally (files : List (String × List Nat)) (s : Session)
    (writeErr : Option WriteErr) (unlinkFail : List String) :
    Except AsmError (String × List (String × List Nat)) :=
  match collectLocalChunks files s.chunks (List.range s.totalChunks.toNat) with
  | .error e => .error e
  | .ok parts =>
    match writeErr with
    | some .enospc => .error .enospc
    | some (.other msg) => .error (.writeOther msg)
    | none =>
      let files1 := mapSet files (videoPath s.finalFilename) parts.flatten
      let files2 := (List.range s.totalChunks.toNat).foldl
        (fun fs i =>
          match mapGet s.chunks (Int.ofNat i) with
          | none => fs
          | some info =>
            if tempPath info.filename ∈ unlinkFail then fs
            else mapDelete fs (tempPath info.filename)) files1
      .ok ("/uploads/videos/" ++ s.finalFilename, files2)

/-- Chunk-collection loop of `assembleChunksToCloud` (reads from the
in-memory `chunkStorage`). -/
def collectCloudChunks (storage : List (String × MemChunk))
    (chunks : List (Int × ChunkInfo)) : List Nat → Except AsmError (List (List Nat))
  | [] => .ok []
  | i :: rest =>
    match mapGet chunks (Int.ofNat i) with
    | none => .error (.missingChunk i)
    | some info =>
      match mapGet storage info.filename with
      | none => .error (.chunkDataNotFound info.filename)
      | some entry =>
        match collectCloudChunks storage chunks rest with
        | .error e => .error e
        | .ok parts => .ok (entry.data :: parts)

/-- Memory-chunk cleanup loop shared by the cloud success path and
`fallbackToLocalAssembly` (`for i in 0..totalChunks-1 delete`). -/
def deleteSessionMemChunks (storage : List (String × MemChunk)) (s : Session) :
    List (String × MemChunk) :=
  (List.range s.totalChunks.toNat).foldl
    (fun acc i =>
      match mapGet s.chunks (Int.ofNat i) with
      | none => acc
      | some info => mapDelete acc info.filename) storage

/-- `fallbackToLocalAssembly` (nested in `assembleChunksToCloud`): write the
combined buffer locally, clean the memory chunks, return the local URL. -/
def fallbackToLocalAssembly (storage : List (String × MemChunk))
    (files : List (String × List Nat)) (s : Session) (buffer : List Nat)
    (writeErr : Option WriteErr) :
    Except AsmError (String × List (String × MemChunk) × List (String × List Nat)) :=
  match writeErr with
  | some w => .error (.fallbackFailed w)
  | none =>
    .ok ("/uploads/videos/" ++ s.finalFilename,
         deleteSessionMemChunks storage s,
         mapSet files (videoPath s.finalFilename) buffer)

/-- Opaque model of the URL returned by the blob store `put`. -/
def blobUrl (name : String) : String :=
  "https://blob.vercel-storage.com/videos/" ++ name

/-- `assembleChunksToCloud`: collect memory chunks, combine, upload to the
blob store when on Vercel (`blobOk` models `put` succeeding; on failure the
code falls back to local storage), and throw a `TypeError` in the
development branch (it calls `this.fallbackToLocalAssembly` with `this`
undefined). -/
def assembleChunksToCloud (storage : List (String × MemChunk))
    (files : List (String × List Nat)) (s : Session)
    (isVercel blobOk : Bool) (writeErr : Option WriteErr) :
    Except AsmError (String × List (String × MemChunk) × List (String × List Nat)) :=
  match collectCloudChunks storage s.chunks (List.range s.totalChunks.toNat) with
  | .error e => .error e
  | .ok parts =>
    if parts.flatten.length = 0 then .error .noData
    else if isVercel then
      if blobOk then
        .ok (blobUrl s.finalFilename, deleteSessionMemChunks storage s, files)
      else fallbackToLocalAssembly storage files s parts.flatten writeErr
    else .error .devFallbackTypeError

/-- Assembly dispatch of the completion `POST`
(`session.useCloudStorage ? assembleChunksToCloud : assembleChunksLocally`),
returning the URL together with the new chunk storage and filesystem. -/
def runAssembly (st : ServerState) (s : Session) (isVercel blobOk : Bool)
    (writeErr : Option WriteErr) (unlinkFail : List String) :
    Except AsmError (String × List (String × MemChunk) × List (String × List Nat)) :=
  if s.useCloudStorage then
    assembleChunksToCloud st.chunkStorage st.files s isVercel blobOk writeErr
  else
    match assembleChunksLocally st.files s writeErr unlinkFail with
    | .error e => .error e
    | .ok (url, files1) => .ok (url, st.chunkStorage, files1)

structure CompleteResult where
  status : Nat
  success : Bool
  message : String
  videoId : Option String
  fileUrl : Option String
  needsConversion : Option Bool
deriving DecidableEq

def webCompatibleFormats : List String :=
  ["video/mp4", "video/webm", "video/ogg"]

/-- The `POST` handler of `complete.ts`. -/
def completePost (st : ServerState) (uploadId : String) (isVercel blobOk : Bool)
    (writeErr : Option WriteErr) (unlinkFail : List String) :
    CompleteResult × ServerState :=
  if uploadId = "" then
    ({ status := 400, success := false, message := "Upload ID is required",
       videoId := none, fileUrl := none, needsConversion := none }, st)
  else
    match mapGet st.uploadSessions uploadId with
    | none =>
      ({ status := 404, success := false,
         message := "Invalid or expired upload session. In serverless environments, session data may be lost between function invocations.",
         videoId := none, fileUrl := none, needsConversion := none }, st)
    | some s =>
      if (s.uploadedChunks : Int) ≠ s.totalChunks then
        ({ status := 400, success := false,
           message := "Upload incomplete. " ++ toString s.uploadedChunks ++ "/" ++
             toString s.totalChunks ++ " chunks uploaded",
           videoId := none, fileUrl := none, needsConversion := none }, st)
      else
        match runAssembly st s isVercel blobOk writeErr unlinkFail with
        | .error e =>
          ({ status := 500, success := false, message := classifyAsmError e,
             videoId := none, fileUrl := none, needsConversion := none }, st)
        | .ok (url, storage1, files1) =>
          let needsConv : Bool := ¬ s.contentType ∈ webCompatibleFormats
          ({ status := 200, success := true,
             message := if needsConv then
                 "Video uploaded successfully. Converting to web-compatible format..."
               else "Video uploaded successfully and is ready for playback.",
             videoId := some ⟨uploadId.data.take 11⟩,
             fileUrl := some url,
             needsConversion := some needsConv },
           { uploadSessions := mapDelete st.uploadSessions uploadId,
             chunkStorage := storage1,
             files := files1 })

/-! ## Abort handler (`abort.ts`) -/

structure AbortResult where
  status : Nat
  success : Bool
  message : String
deriving DecidableEq

/-- `cleanupLocalFiles`: unlink every non-cloud chunk's temp file, counting
successes and tolerating failures (`unlinkFail` are paths whose `unlink`
throws; `unlink` of an absent path throws `ENOENT`). -/
def cleanupStep (unlinkFail : List String) (acc : List (String × List Nat) × Nat)
    (p : Int × ChunkInfo) : List (String × List Nat) × Nat :=
  if ¬ p.2.isCloudStorage then
    if mapHas acc.1 (tempPath p.2.filename) ∧ ¬ tempPath p.2.filename ∈ unlinkFail then
      (mapDelete acc.1 (tempPath p.2.filename), acc.2 + 1)
    else acc
  else acc

def cleanupLocalFiles (files : List (String × List Nat)) (s : Session)
    (unlinkFail : List String) : List (String × List Nat) × Nat :=
  s.chunks.foldl (cleanupStep unlinkFail) (files, 0)

/-- `cleanupMemoryChunks`: delete every cloud chunk's memory entry, counting
actual deletions. -/
def cleanupMemoryChunks (storage : List (String × MemChunk)) (s : Session) :
    List (String × MemChunk) × Nat :=
  s.chunks.foldl
    (fun acc p =>
      if p.2.isCloudStorage then
        if mapHas acc.1 p.2.filename then (mapDelete acc.1 p.2.filename, acc.2 + 1)
        else acc
      else acc)
    (storage, 0)

/-- The `POST` handler of `abort.ts`. -/
def abortPost (st : ServerState) (uploadId : String) (unlinkFail : List String) :
    AbortResult × ServerState :=
  if uploadId = "" then
    ({ status := 400, success := false, message := "Upload ID is required" }, st)
  else
    match mapGet st.uploadSessions uploadId with
    | none =>
      ({ status := 200, success := true,
         message := "Upload session not found (may have expired or been cleaned up)" }, st)
    | some s =>
      let cleaned :=
        if s.useCloudStorage then
          (cleanupMemoryChunks st.chunkStorage s).1
        else st.chunkStorage
      let files1 :=
        if s.useCloudStorage then st.files
        else (cleanupLocalFiles st.files s unlinkFail).1
      ({ status := 200, success := true,
         message := "Upload aborted. Cleaned up " ++ toString s.chunks.length ++ " chunks." },
       { uploadSessions := mapDelete st.uploadSessions uploadId,
         chunkStorage := cleaned,
         files := files1 })

/-! ## Client-side splitting (`chunked-upload.ts`) -/

/-- `file.slice(i * chunkSize, min((i+1) * chunkSize, file.size))`. -/
def sliceFile (file : List Nat) (chunkSize i : Nat) : List Nat :=
  (file.drop (i * chunkSize)).take (min ((i + 1) * chunkSize) file.length - i * chunkSize)

/-- `totalChunks = Math.ceil(file.size / chunkSize)`. -/
def totalChunksOf (file : List Nat) (chunkSize : Nat) : Nat :=
  ceilDiv file.length chunkSize

/-- The chunk-upload request issued by `uploadChunk` for index `i`. -/
def clientReq (uploadId : String) (file : List Nat) (chunkSize : Nat) (now : Nat)
    (i : Nat) : ChunkReq :=
  { uploadId := uploadId
    chunkIndex := Int.ofNat i
    totalChunks := Int.ofNat (totalChunksOf file chunkSize)
    chunk := sliceFile file chunkSize i
    chunkType := ""
    now := now
    writeOk := true }

/-! ## Concrete sample data used in witnesses and counterexamples -/

/-- A chunk request addressed to session `"u"` (write succeeding). -/
def mkReq (i t : Int) (bytes : List Nat) (now : Nat) : ChunkReq :=
  { uploadId := "u", chunkIndex := i, totalChunks := t, chunk := bytes,
    chunkType := "video/mp4", now := now, writeOk := true }

/-- State after `init` of a declared 10MB upload (estimated
`totalChunks = 2`), local storage. -/
def sampleInit : ServerState :=
  (initPost emptyState
    { filename := "a.mp4", fileSize := 10485760, contentType := "video/mp4",
      title := "t", tags := "" } 7 "u" false false true).2

/-- A session holding 2 of 3 chunks. -/
def sampleIncomplete : Session :=
  { filename := "a.mp4", finalFilename := "u.mp4", fileSize := 5
    contentType := "video/mp4", title := "t", tags := ""
    chunks := [(0, ⟨chunkFilename "u" 0, 2, 7, false⟩),
               (1, ⟨chunkFilename "u" 1, 2, 7, false⟩)]
    totalChunks := 3, uploadedChunks := 2, createdAt := 7, lastActivity := 7
    useCloudStorage := false, serverlessWarning := false }

def sampleIncompleteState : ServerState :=
  { uploadSessions := [("u", sampleIncomplete)], chunkStorage := [], files := [] }

/-- A session holding its single chunk, with the temp file on disk. -/
def sampleComplete : Session :=
  { filename := "a.mp4", finalFilename := "u.mp4", fileSize := 3
    contentType := "video/mp4", title := "t", tags := ""
    chunks := [(0, ⟨chunkFilename "u" 0, 3, 7, false⟩)]
    totalChunks := 1, uploadedChunks := 1, createdAt := 7, lastActivity := 7
    useCloudStorage := false, serverlessWarning := false }

def sampleCompleteState : ServerState :=
  { uploadSessions := [("u", sampleComplete)], chunkStorage := []
    files := [(tempPath (chunkFilename "u" 0), [1, 2, 3])] }

/-! ## Derived forms and harness definitions used by the theorems -/

/-- Normal form of the chunk receiver after a successful session lookup:
the `totalChunks === 0` initialisation followed by the mismatch update
always leaves `session.totalChunks` equal to the request value
(`chunkPost_eq_core` proves the equality with `chunkPost`). -/
def chunkPostCore (st : ServerState) (r : ChunkReq) (s : Session) :
    ChunkResult × ServerState :=
  let s3 := { s with lastActivity := r.now, totalChunks := r.totalChunks }
  if r.chunkIndex < 0 ∨ r.chunkIndex ≥ r.totalChunks then
    ({ status := 400, success := false, message := "Invalid chunk index",
       uploadedChunks := none, totalChunks := none, progress := none },
     { st with uploadSessions := mapSet st.uploadSessions r.uploadId s3 })
  else if mapHas s3.chunks r.chunkIndex then
    ({ status := 200, success := true,
       message := "Chunk already uploaded (idempotent)",
       uploadedChunks := some s3.uploadedChunks,
       totalChunks := some s3.totalChunks,
       progress := some (progressOf s3.uploadedChunks s3.totalChunks) },
     { st with uploadSessions := mapSet st.uploadSessions r.uploadId s3 })
  else if s3.useCloudStorage then
    let key := memChunkKey r.uploadId r.chunkIndex
    let storage1 := cleanupExpiredChunks st.chunkStorage r.now
    let storage2 := mapSet storage1 key
      { data := r.chunk, uploadedAt := r.now, size := r.chunk.length,
        type := r.chunkType }
    let info : ChunkInfo :=
      { filename := key, size := r.chunk.length, uploadedAt := r.now,
        isCloudStorage := true }
    let chunks1 := mapSet s3.chunks r.chunkIndex info
    let s4 := { s3 with chunks := chunks1, uploadedChunks := chunks1.length }
    ({ status := 200, success := true,
       message := "Chunk " ++ toString (r.chunkIndex + 1) ++ "/" ++
         toString r.totalChunks ++ " uploaded successfully",
       uploadedChunks := some s4.uploadedChunks,
       totalChunks := some s4.totalChunks,
       progress := some (progressOf s4.uploadedChunks s4.totalChunks) },
     { st with uploadSessions := mapSet st.uploadSessions r.uploadId s4,
               chunkStorage := storage2 })
  else if ¬ r.writeOk then
    ({ status := 500, success := false, message := "Failed to save chunk",
       uploadedChunks := none, totalChunks := none, progress := none },
     { st with uploadSessions := mapSet st.uploadSessions r.uploadId s3 })
  else
    let fname := chunkFilename r.uploadId r.chunkIndex
    let files1 := mapSet st.files (tempPath fname) r.chunk
    let info : ChunkInfo :=
      { filename := fname, size := r.chunk.length, uploadedAt := r.now,
        isCloudStorage := false }
    let chunks1 := mapSet s3.chunks r.chunkIndex info
    let s4 := { s3 with chunks := chunks1, uploadedChunks := chunks1.length }
    ({ status := 200, success := true,
       message := "Chunk " ++ toString (r.chunkIndex + 1) ++ "/" ++
         toString r.totalChunks ++ " uploaded successfully",
       uploadedChunks := some s4.uploadedChunks,
       totalChunks := some s4.totalChunks,
       progress := some (progressOf s4.uploadedChunks s4.totalChunks) },
     { st with uploadSessions := mapSet st.uploadSessions r.uploadId s4,
               files := files1 })

/-- Ledger well-formedness relative to a declared total `t`: the
`uploadedChunks` counter equals the ledger size, keys are distinct, and
every key lies in `[0, t)`. -/
def LedgerInv (t : Int) (s : Session) : Prop :=
  s.uploadedChunks = s.chunks.length ∧ (s.chunks.map Prod.fst).Nodup ∧
    ∀ p ∈ s.chunks, 0 ≤ p.1 ∧ p.1 < t

/-- Run a sequence of chunk requests, collecting the responses. -/
def runChunkList (st : ServerState) : List ChunkReq → List ChunkResult × ServerState
  | [] => ([], st)
  | r :: rest =>
    let out := chunkPost st r
    let next := runChunkList out.2 rest
    (out.1 :: next.1, next.2)


/-- The session record stored by `sampleInit` (proved equal by `decide`
inside the witnesses that need it). -/
def sampleInitSession : Session :=
  { filename := "a.mp4", finalFilename := "u.mp4", fileSize := 10485760
    contentType := "video/mp4", title := "t", tags := ""
    chunks := [], totalChunks := 2, uploadedChunks := 0, createdAt := 7
    lastActivity := 7, useCloudStorage := false, serverlessWarning := false }

/-! ### Counterexample traces -/

/-- After `init`, submit index 0 declaring 2 total chunks. -/
def cexStateA : ServerState := (chunkPost sampleInit (mkReq 0 2 [1] 7)).2

/-- ... then index 1 declaring 2 total chunks (ledger now has 2 entries). -/
def cexStateB : ServerState := (chunkPost cexStateA (mkReq 1 2 [2] 7)).2

/-- ... then re-submit index 0 declaring 1 total chunk: the receiver
adopts `totalChunks = 1` while the ledger keeps its 2 entries. -/
def cexStateC : ServerState := (chunkPost cexStateB (mkReq 0 1 [1] 7)).2

/-- After `init`, submit index 0 declaring 10 total chunks (progress 10). -/
def cexDupA : ServerState := (chunkPost sampleInit (mkReq 0 10 [1] 7)).2

/-- ... then index 1 declaring 2 total chunks (progress jumps to 100). -/
def cexDupB : ServerState := (chunkPost cexDupA (mkReq 1 2 [2] 7)).2

/-- After `init`, submit index 0 declaring 1 total chunk (progress 100). -/
def cexProgA : ServerState := (chunkPost sampleInit (mkReq 0 1 [1] 7)).2


/-! ### Round-trip development (C1) -/

/-- Big-endian decimal digit characters of `n`; the spine of
`Nat.toDigitsCore`, used to prove `Nat.repr` injective (chunk temp
filenames embed the chunk index in decimal). -/
def repDigits (n : Nat) : List Char :=
  if n < 10 then [Nat.digitChar n]
  else repDigits (n / 10) ++ [Nat.digitChar (n % 10)]
decreasing_by exact Nat.div_lt_self (by omega) (by norm_num)

/-- The `ChunkInfo` the receiver records for chunk `i` of a local-storage
client upload. -/
def c1Info (uploadId : String) (file : List Nat) (c now i : Nat) : ChunkInfo :=
  { filename := chunkFilename uploadId (Int.ofNat i)
    size := (sliceFile file c i).length
    uploadedAt := now
    isCloudStorage := false }

/-- Exact server state after `init` and the client requests for the
indices in `done` (in that order): one session, no memory chunks, one temp
file per processed index. -/
def c1State (base : Session) (uploadId : String) (file : List Nat) (c now : Nat)
    (tc : Int) (done : List Nat) : ServerState :=
  { uploadSessions := [(uploadId,
      { base with
        chunks := done.map (fun i => (Int.ofNat i, c1Info uploadId file c now i))
        uploadedChunks := done.length
        totalChunks := tc
        lastActivity := now })]
    chunkStorage := []
    files := done.map (fun i =>
      (tempPath (chunkFilename uploadId (Int.ofNat i)), sliceFile file c i)) }

/-- The session record created by `init` for a client upload. -/
def c1Base (fn ct tt tg uploadId : String) (len now : Nat) : Session :=
  { filename := sanitizeFileName fn
    finalFilename := uploadId ++ getFileExtension (sanitizeFileName fn)
    fileSize := len
    contentType := ct
    title := jsTrim tt
    tags := jsTrim tg
    chunks := []
    totalChunks := Int.ofNat (ceilDiv len (5 * 1024 * 1024))
    uploadedChunks := 0
    createdAt := now
    lastActivity := now
    useCloudStorage := false
    serverlessWarning := false }

/-! ## Lemmas about the `Map` model -/

theorem mapGet_nil {α β : Type} [DecidableEq α] (k : α) :
    mapGet ([] : List (α × β)) k = none := rfl

theorem mapGet_cons_self {α β : Type} [DecidableEq α] (m : List (α × β)) (k : α) (v : β) :
    mapGet ((k, v) :: m) k = some v := by
  simp [mapGet, List.find?]

theorem mapGet_cons_ne {α β : Type} [DecidableEq α] (m : List (α × β)) {k k' : α} (v : β)
    (h : k' ≠ k) : mapGet ((k', v) :: m) k = mapGet m k := by
  simp [mapGet, List.find?, h]

theorem mapHas_iff {α β : Type} [DecidableEq α] (m : List (α × β)) (k : α) :
    mapHas m k = true ↔ (mapGet m k).isSome := by
  induction m with
  | nil => simp [mapHas, mapGet]
  | cons p m ih =>
    by_cases h : p.1 = k
    · obtain ⟨k1, v1⟩ := p
      subst h
      simp [mapHas, mapGet_cons_self]
    · obtain ⟨k1, v1⟩ := p
      simp only [mapHas, List.any_cons] at ih ⊢
      simp [mapGet_cons_ne _ _ h, h, ih]

theorem mapHas_false_of_get_none {α β : Type} [DecidableEq α] {m : List (α × β)} {k : α}
    (h : mapGet m k = none) : mapHas m k = false := by
  by_cases hh : mapHas m k
  · rw [mapHas_iff] at hh
    rw [h] at hh
    simp at hh
  · simpa using hh

theorem mapSet_of_not_has {α β : Type} [DecidableEq α] {m : List (α × β)} {k : α} (v : β)
    (h : mapHas m k = false) : mapSet m k v = m ++ [(k, v)] := by
  simp [mapSet, h]

theorem mapGet_append_left {α β : Type} [DecidableEq α] {m : List (α × β)} (m' : List (α × β))
    {k : α} {v : β} (h : mapGet m k = some v) : mapGet (m ++ m') k = some v := by
  induction m with
  | nil => simp [mapGet] at h
  | cons p m ih =>
    obtain ⟨k1, v1⟩ := p
    by_cases hk : k1 = k
    · subst hk
      rw [mapGet_cons_self] at h
      simpa [mapGet_cons_self] using h
    · rw [mapGet_cons_ne _ _ hk] at h
      rw [List.cons_append, mapGet_cons_ne _ _ hk]
      exact ih h

theorem mapGet_append_right {α β : Type} [DecidableEq α] {m : List (α × β)}
    (m' : List (α × β)) {k : α} (h : mapGet m k = none) :
    mapGet (m ++ m') k = mapGet m' k := by
  induction m with
  | nil => simp
  | cons p m ih =>
    obtain ⟨k1, v1⟩ := p
    by_cases hk : k1 = k
    · subst hk
      rw [mapGet_cons_self] at h
      simp at h
    · rw [mapGet_cons_ne _ _ hk] at h
      rw [List.cons_append, mapGet_cons_ne _ _ hk]
      exact ih h

theorem mapGet_mapSet_self {α β : Type} [DecidableEq α] (m : List (α × β)) (k : α) (v : β) :
    mapGet (mapSet m k v) k = some v := by
  by_cases h : mapHas m k
  · simp only [mapSet, h, if_pos]
    induction m with
    | nil => simp [mapHas] at h
    | cons p m ih =>
      obtain ⟨k1, v1⟩ := p
      by_cases hk : k1 = k
      · subst hk
        simp [mapGet_cons_self]
      · simp only [List.map_cons, if_neg hk]
        rw [mapGet_cons_ne _ _ hk]
        simp only [mapHas, List.any_cons, Bool.or_eq_true, decide_eq_true_eq] at h
        rcases h with h | h
        · exact absurd h hk
        · exact ih h
  · simp only [mapSet, h, if_neg, Bool.false_eq_true, not_false_iff]
    have hn : mapGet m k = none := by
      by_cases hg : (mapGet m k).isSome
      · rw [← mapHas_iff] at hg
        simp [hg] at h
      · simpa using hg
    rw [mapGet_append_right _ hn, mapGet_cons_self]

theorem mapDelete_cons {α β : Type} [DecidableEq α] (m : List (α × β)) (k1 k : α) (v1 : β) :
    mapDelete ((k1, v1) :: m) k =
      if k1 = k then mapDelete m k else (k1, v1) :: mapDelete m k := by
  by_cases h : k1 = k <;> simp [mapDelete, List.filter_cons, h]

theorem mapGet_overwrite_ne {α β : Type} [DecidableEq α] (m : List (α × β)) {k k' : α}
    (v : β) (h : k' ≠ k) :
    mapGet (m.map (fun p => if p.1 = k' then (k', v) else p)) k = mapGet m k := by
  induction m with
  | nil => rfl
  | cons p m ih =>
    obtain ⟨k1, v1⟩ := p
    by_cases h1 : k1 = k'
    · subst h1
      have hp : ((k1, v1) : α × β).1 = k1 := rfl
      rw [List.map_cons, if_pos hp, mapGet_cons_ne _ _ h, mapGet_cons_ne _ _ h]
      exact ih
    · simp only [List.map_cons, if_neg h1]
      by_cases h2 : k1 = k
      · subst h2
        rw [mapGet_cons_self, mapGet_cons_self]
      · rw [mapGet_cons_ne _ _ h2, mapGet_cons_ne _ _ h2, ih]

theorem mapGet_mapSet_ne {α β : Type} [DecidableEq α] (m : List (α × β)) {k k' : α} (v : β)
    (h : k' ≠ k) : mapGet (mapSet m k' v) k = mapGet m k := by
  by_cases hh : mapHas m k'
  · simp only [mapSet, hh, if_pos]
    exact mapGet_overwrite_ne m v h
  · rw [mapSet_of_not_has _ (by simpa using hh)]
    by_cases hg : (mapGet m k).isSome
    · obtain ⟨v1, hv⟩ := Option.isSome_iff_exists.mp hg
      rw [hv]
      exact mapGet_append_left _ hv
    · have hn : mapGet m k = none := by simpa using hg
      rw [hn, mapGet_append_right _ hn, mapGet_cons_ne _ _ h, mapGet_nil]

theorem mapGet_mapDelete_self {α β : Type} [DecidableEq α] (m : List (α × β)) (k : α) :
    mapGet (mapDelete m k) k = none := by
  induction m with
  | nil => rfl
  | cons p m ih =>
    obtain ⟨k1, v1⟩ := p
    rw [mapDelete_cons]
    by_cases h1 : k1 = k
    · simpa [h1] using ih
    · rw [if_neg h1, mapGet_cons_ne _ _ h1]
      exact ih

theorem mapGet_mapDelete_ne {α β : Type} [DecidableEq α] (m : List (α × β)) {k k' : α}
    (h : k' ≠ k) : mapGet (mapDelete m k') k = mapGet m k := by
  induction m with
  | nil => rfl
  | cons p m ih =>
    obtain ⟨k1, v1⟩ := p
    rw [mapDelete_cons]
    by_cases h1 : k1 = k'
    · subst h1
      rw [if_pos rfl, mapGet_cons_ne _ _ h, ih]
    · rw [if_neg h1]
      by_cases h2 : k1 = k
      · subst h2
        rw [mapGet_cons_self, mapGet_cons_self]
      · rw [mapGet_cons_ne _ _ h2, mapGet_cons_ne _ _ h2, ih]

theorem mapGet_mapDelete_none {α β : Type} [DecidableEq α] {m : List (α × β)} {k : α}
    (k' : α) (h : mapGet m k = none) : mapGet (mapDelete m k') k = none := by
  by_cases hk : k' = k
  · subst hk
    exact mapGet_mapDelete_self m k'
  · rw [mapGet_mapDelete_ne m hk, h]

theorem mapSet_length {α β : Type} [DecidableEq α] (m : List (α × β)) (k : α) (v : β) :
    (mapSet m k v).length = if mapHas m k then m.length else m.length + 1 := by
  by_cases h : mapHas m k
  · simp [mapSet, h]
  · simp [mapSet, h]

/-! ## Lemmas about the filename sanitizer -/

theorem mem_of_mem_dropWhile {α : Type} (p : α → Bool) {a : α} :
    ∀ l : List α, a ∈ l.dropWhile p → a ∈ l := by
  intro l
  induction l with
  | nil => intro h; simp at h
  | cons c rest ih =>
    intro h
    rw [List.dropWhile_cons] at h
    by_cases hp : p c = true
    · rw [if_pos hp] at h
      exact List.mem_cons_of_mem _ (ih h)
    · rw [if_neg hp] at h
      exact h

theorem mem_of_mem_take {α : Type} {a : α} :
    ∀ (n : Nat) (l : List α), a ∈ l.take n → a ∈ l := by
  intro n
  induction n with
  | zero => intro l h; simp at h
  | succ n ih =>
    intro l h
    cases l with
    | nil => simp at h
    | cons c rest =>
      rw [List.take_succ_cons] at h
      rcases List.mem_cons.mp h with h | h
      · exact h ▸ List.mem_cons_self _ _
      · exact List.mem_cons_of_mem _ (ih rest h)

theorem collapseDots_subset : ∀ l : List Char, collapseDots l ⊆ l := by
  intro l
  induction l with
  | nil => intro a ha; simp [collapseDots] at ha
  | cons c1 rest ih =>
    cases rest with
    | nil => intro a ha; simpa [collapseDots] using ha
    | cons c2 rest2 =>
      intro a ha
      by_cases h : c1 = '.' ∧ c2 = '.'
      · rw [collapseDots, if_pos h] at ha
        exact List.mem_cons_of_mem _ (ih ha)
      · rw [collapseDots, if_neg h] at ha
        rcases List.mem_cons.mp ha with h1 | h1
        · exact h1 ▸ List.mem_cons_self _ _
        · exact List.mem_cons_of_mem _ (ih h1)

theorem mem_of_mem_trimChars {a : Char} (l : List Char) (h : a ∈ trimChars l) :
    a ∈ l := by
  unfold trimChars at h
  rw [List.mem_reverse] at h
  have h1 := mem_of_mem_dropWhile isJsSpace _ h
  rw [List.mem_reverse] at h1
  exact mem_of_mem_dropWhile isJsSpace _ h1

/-- Every character of `sanitizeFileName s` survives the first `replace`,
so it is not in the stripped class `[<>:"/\\|?*]`. -/
theorem isBadFileChar_false_of_mem_sanitized {c : Char} {s : String}
    (h : c ∈ (sanitizeFileName s).data) : isBadFileChar c = false := by
  have h0 : c ∈ (trimChars ((collapseDots (s.data.filter
      (fun x => ¬ isBadFileChar x))).dropWhile (fun x => x = '.'))).take 255 := h
  have h1 := mem_of_mem_take _ _ h0
  have h2 := mem_of_mem_trimChars _ h1
  have h3 := mem_of_mem_dropWhile _ _ h2
  have h4 := collapseDots_subset _ h3
  have h5 := List.mem_filter.mp h4
  simpa using h5.2

/-! ## Claims -/

/-- **C8** (amended): for every input filename, `sanitizeFileName` produces
output containing no path separator (`'/'` or `'\\'`) and no drive/volume
marker (`':'`).  (The further conjunct of C8 — that the output never begins
with a dot — is refuted by `sanitizeFileName_leading_dot_cex`: leading dots
are stripped *before* the final trim, which can expose a dot again.) -/
theorem sanitizeFileName_no_separators (s : String) :
    ¬ '/' ∈ (sanitizeFileName s).data ∧ ¬ '\\' ∈ (sanitizeFileName s).data ∧
      ¬ ':' ∈ (sanitizeFileName s).data := by
  refine ⟨fun h => ?_, fun h => ?_, fun h => ?_⟩
  · exact absurd (isBadFileChar_false_of_mem_sanitized h) (by decide)
  · exact absurd (isBadFileChar_false_of_mem_sanitized h) (by decide)
  · exact absurd (isBadFileChar_false_of_mem_sanitized h) (by decide)

/-- **C8** counterexample: the sanitizer output *can* begin with a dot.
On input `" .foo"` the leading-dot strip does not fire (the string starts
with a space) and the subsequent trim exposes the dot: the output is
`".foo"`. -/
theorem sanitizeFileName_leading_dot_cex :
    sanitizeFileName " .foo" = ".foo" ∧
      (sanitizeFileName " .foo").data.head? = some '.' := by
  constructor
  · decide
  · decide

/-- **C10**: `init` rejects a zero `fileSize`, an empty `filename`, or an
empty/whitespace-only `title` as a missing-required-fields 400 before any
session state is allocated (the state is returned unchanged), and a 413 is
returned only when the declared size strictly exceeds
`2 * 1024 * 1024 * 1024` bytes. -/
theorem initPost_validation (st : ServerState) (r : InitReq) (now : Nat)
    (uploadId : String) (uc vp dk : Bool) :
    (r.fileSize = 0 ∨ r.filename = "" ∨ jsTrim r.title = "" →
      initPost st r now uploadId uc vp dk =
        ({ status := 400, success := false,
           message := "Missing required fields: filename, fileSize, title",
           uploadId := none }, st)) ∧
    ((initPost st r now uploadId uc vp dk).1.status = 413 →
      r.fileSize > 2 * 1024 * 1024 * 1024) := by
  constructor
  · intro h
    have hv : r.filename = "" ∨ r.fileSize = 0 ∨ jsTrim r.title = "" := by tauto
    simp [initPost, hv]
  · intro h
    by_cases hv : r.filename = "" ∨ r.fileSize = 0 ∨ jsTrim r.title = ""
    · simp [initPost, hv] at h
    · by_cases hs : r.fileSize > maxSize
      · simpa [maxSize] using hs
      · exfalso
        simp only [initPost, if_neg hv, if_neg hs] at h
        split at h <;> simp at h

/-- **C10** witness: `init` with declared size 0 is a 400 that leaves the
state untouched, and a declared size of exactly 2GB does not trigger 413. -/
theorem initPost_validation_witness :
    initPost emptyState
        { filename := "a.mp4", fileSize := 0, contentType := "video/mp4",
          title := "t", tags := "" } 7 "u" false false true =
      ({ status := 400, success := false,
         message := "Missing required fields: filename, fileSize, title",
         uploadId := none }, emptyState) :=
  (initPost_validation emptyState
    { filename := "a.mp4", fileSize := 0, contentType := "video/mp4",
      title := "t", tags := "" } 7 "u" false false true).1 (Or.inl rfl)

/-- **C3**: whenever completion is requested for an existing session whose
received-chunk count differs from `totalChunks`, `complete` fails with a
400 whose message carries the received/total counts
(`Upload incomplete. u/t chunks uploaded`), and the whole server state —
in particular the session record — is unchanged. -/
theorem completePost_incomplete_rejected (st : ServerState) (uploadId : String)
    (iv bo : Bool) (we : Option WriteErr) (uf : List String) (s : Session)
    (hid : uploadId ≠ "") (hget : mapGet st.uploadSessions uploadId = some s)
    (hne : (s.uploadedChunks : Int) ≠ s.totalChunks) :
    completePost st uploadId iv bo we uf =
      ({ status := 400, success := false,
         message := "Upload incomplete. " ++ toString s.uploadedChunks ++ "/" ++
           toString s.totalChunks ++ " chunks uploaded",
         videoId := none, fileUrl := none, needsConversion := none }, st) := by
  simp [completePost, hid, hget, hne]

/-- **C3** witness: completing a session with 2 of 3 chunks is rejected
with the counts in the message and does not destroy the session. -/
theorem completePost_incomplete_rejected_witness :
    completePost sampleIncompleteState "u" false false none [] =
      ({ status := 400, success := false,
         message := "Upload incomplete. 2/3 chunks uploaded",
         videoId := none, fileUrl := none, needsConversion := none },
       sampleIncompleteState) := by
  have h := completePost_incomplete_rejected sampleIncompleteState "u" false false
    none [] sampleIncomplete (by decide) (by decide) (by decide)
  simpa using h

/-- **C4**: once an existing session passes the completeness gate, the
completion handler (a) on any assembly error returns a 500 classified by
cause and leaves the whole state — in particular the session table —
intact, and (b) on successful assembly destroys the session record
unconditionally, whatever the needs-conversion flag is (the flag is
reported as `contentType ∉ webCompatibleFormats` and does not influence
deletion). -/
theorem completePost_session_lifecycle (st : ServerState) (uploadId : String)
    (iv bo : Bool) (we : Option WriteErr) (uf : List String) (s : Session)
    (hid : uploadId ≠ "") (hget : mapGet st.uploadSessions uploadId = some s)
    (hc : (s.uploadedChunks : Int) = s.totalChunks) :
    (∀ e : AsmError, runAssembly st s iv bo we uf = .error e →
      completePost st uploadId iv bo we uf =
        ({ status := 500, success := false, message := classifyAsmError e,
           videoId := none, fileUrl := none, needsConversion := none }, st)) ∧
    (∀ (url : String) (storage1 : List (String × MemChunk))
        (files1 : List (String × List Nat)),
      runAssembly st s iv bo we uf = .ok (url, storage1, files1) →
      (completePost st uploadId iv bo we uf).1.success = true ∧
      (completePost st uploadId iv bo we uf).1.needsConversion =
        some (decide (¬ s.contentType ∈ webCompatibleFormats)) ∧
      (completePost st uploadId iv bo we uf).2.uploadSessions =
        mapDelete st.uploadSessions uploadId) := by
  constructor
  · intro e he
    simp [completePost, hid, hget, hc, he]
  · intro url storage1 files1 hok
    simp [completePost, hid, hget, hc, hok]

/-- **C4** witness: with the one-chunk complete session, an `ENOSPC` write
fault yields a 500 storage error with the state intact, and a fault-free
run deletes the session record. -/
theorem completePost_session_lifecycle_witness :
    completePost sampleCompleteState "u" false false (some .enospc) [] =
      ({ status := 500, success := false,
         message := "Insufficient storage space to complete upload",
         videoId := none, fileUrl := none, needsConversion := none },
       sampleCompleteState) ∧
    (completePost sampleCompleteState "u" false false none []).2.uploadSessions =
      mapDelete sampleCompleteState.uploadSessions "u" := by
  constructor
  · exact (completePost_session_lifecycle sampleCompleteState "u" false false
      (some .enospc) [] sampleComplete (by decide) (by decide) (by decide)).1
      .enospc rfl
  · exact ((completePost_session_lifecycle sampleCompleteState "u" false false
      none [] sampleComplete (by decide) (by decide) (by decide)).2
      "/uploads/videos/u.mp4" [] [(videoPath "u.mp4", [1, 2, 3])] rfl).2.2

/-! ## Lemmas about the chunk receiver -/

theorem mapGet_none_of_has_false {α β : Type} [DecidableEq α] {m : List (α × β)} {k : α}
    (h : mapHas m k = false) : mapGet m k = none := by
  by_cases hg : (mapGet m k).isSome
  · rw [← mapHas_iff] at hg
    rw [hg] at h
    simp at h
  · simpa using hg

/-- The two sequential `totalChunks` updates of the receiver always leave
the session's `totalChunks` equal to the request value, so the handler
body after lookup is `chunkPostCore`. -/
theorem chunkPost_eq_core (st : ServerState) (r : ChunkReq) (s : Session)
    (hid : r.uploadId ≠ "") (hget : mapGet st.uploadSessions r.uploadId = some s) :
    chunkPost st r = chunkPostCore st r s := by
  obtain ⟨f1, f2, f3, f4, f5, f6, f7, f8, f9, f10, f11, f12, f13⟩ := s
  by_cases hz : f8 = 0
  · subst hz
    simp [chunkPost, chunkPostCore, hid, hget]
  · by_cases hm : f8 = r.totalChunks
    · subst hm
      simp [chunkPost, chunkPostCore, hid, hget, hz]
    · simp [chunkPost, chunkPostCore, hid, hget, hz, hm]

/-- **C9** (amended): an out-of-range chunk index is rejected with the
range error `Invalid chunk index` and the session's ledger, counter and
every other field are untouched — *except* that the rejected request still
refreshes `lastActivity` and overwrites `totalChunks` with its declared
value, because the receiver performs both updates before validating the
index.  The filesystem and chunk storage are untouched. -/
theorem chunkPost_range_reject_frame (st : ServerState) (r : ChunkReq) (s : Session)
    (hid : r.uploadId ≠ "") (hget : mapGet st.uploadSessions r.uploadId = some s)
    (hout : r.chunkIndex < 0 ∨ r.chunkIndex ≥ r.totalChunks) :
    chunkPost st r =
      ({ status := 400, success := false, message := "Invalid chunk index",
         uploadedChunks := none, totalChunks := none, progress := none },
       { st with
         uploadSessions :=
           mapSet st.uploadSessions r.uploadId
             { s with lastActivity := r.now, totalChunks := r.totalChunks } }) := by
  rw [chunkPost_eq_core st r s hid hget]
  simp [chunkPostCore, hout]

/-- **C9** witness: rejecting index 5 against a 1-chunk session at time 99
produces exactly the range error and the `lastActivity`/`totalChunks`
refresh. -/
theorem chunkPost_range_reject_frame_witness :
    chunkPost sampleCompleteState (mkReq 5 1 [9] 99) =
      ({ status := 400, success := false, message := "Invalid chunk index",
         uploadedChunks := none, totalChunks := none, progress := none },
       { sampleCompleteState with
         uploadSessions :=
           mapSet sampleCompleteState.uploadSessions "u"
             { sampleComplete with lastActivity := 99, totalChunks := 1 } }) :=
  chunkPost_range_reject_frame sampleCompleteState (mkReq 5 1 [9] 99) sampleComplete
    (by decide) (by decide) (by decide)

/-- **C9** counterexample: Scenario B — submitting index 2 when
`totalChunks = 2` is rejected with a range error, but the session does
*not* remain otherwise unaffected: `lastActivity` changes from the init
time 7 to the request time 99. -/
theorem chunkPost_range_cex :
    (chunkPost sampleInit (mkReq 2 2 [9] 99)).1.status = 400 ∧
    (chunkPost sampleInit (mkReq 2 2 [9] 99)).1.message = "Invalid chunk index" ∧
    (mapGet sampleInit.uploadSessions "u").map Session.lastActivity = some 7 ∧
    (mapGet (chunkPost sampleInit (mkReq 2 2 [9] 99)).2.uploadSessions "u").map
      Session.lastActivity = some 99 := by
  refine ⟨?_, ?_, ?_, ?_⟩ <;> decide

/-- **C5** (amended): re-submission of an already-recorded index *that
declares the session's current `totalChunks`* (as a single client's retry
does) returns success without modifying the ledger: the chunk map, the
received-chunk counter, the stored chunk bytes (filesystem and chunk
storage are untouched) are unchanged, and the reported progress equals the
session's current ratio, so it does not regress.  Only `lastActivity` is
refreshed.  (Without the equal-`totalChunks` proviso the progress claim is
refuted by `chunkPost_duplicate_regress_cex`.) -/
theorem chunkPost_duplicate_noop (st : ServerState) (r : ChunkReq) (s : Session)
    (hid : r.uploadId ≠ "") (hget : mapGet st.uploadSessions r.uploadId = some s)
    (ht : r.totalChunks = s.totalChunks)
    (hin : ¬ (r.chunkIndex < 0 ∨ r.chunkIndex ≥ r.totalChunks))
    (hdup : mapHas s.chunks r.chunkIndex = true) :
    chunkPost st r =
      ({ status := 200, success := true,
         message := "Chunk already uploaded (idempotent)",
         uploadedChunks := some s.uploadedChunks,
         totalChunks := some s.totalChunks,
         progress := some (progressOf s.uploadedChunks s.totalChunks) },
       { st with
         uploadSessions :=
           mapSet st.uploadSessions r.uploadId { s with lastActivity := r.now } }) := by
  rw [chunkPost_eq_core st r s hid hget]
  obtain ⟨f1, f2, f3, f4, f5, f6, f7, f8, f9, f10, f11, f12, f13⟩ := s
  simp only [Session.totalChunks] at ht
  subst ht
  simp [chunkPostCore, hin, hdup]

/-- **C5** witness: re-submitting chunk 0 of the one-chunk session with
the same declared total returns the idempotent success, count 1 and
progress 100, with only `lastActivity` updated. -/
theorem chunkPost_duplicate_noop_witness :
    chunkPost sampleCompleteState (mkReq 0 1 [1, 2, 3] 99) =
      ({ status := 200, success := true,
         message := "Chunk already uploaded (idempotent)",
         uploadedChunks := some 1, totalChunks := some 1, progress := some 100 },
       { sampleCompleteState with
         uploadSessions :=
           mapSet sampleCompleteState.uploadSessions "u"
             { sampleComplete with lastActivity := 99 } }) :=
  chunkPost_duplicate_noop sampleCompleteState (mkReq 0 1 [1, 2, 3] 99) sampleComplete
    (by decide) (by decide) (by decide) (by decide) (by decide)

/-- **C5** counterexample: a second submission of the same index can make
the reported progress regress.  Submit index 0 declaring 10 totals
(progress 10), index 1 declaring 2 totals (progress 100), then re-submit
index 0 declaring 10 totals: the duplicate succeeds but reports progress
20 < 100, because the receiver adopts the resubmitted `totalChunks`
before the duplicate check. -/
theorem chunkPost_duplicate_regress_cex :
    (chunkPost cexDupB (mkReq 0 10 [1] 7)).1.success = true ∧
    (chunkPost cexDupB (mkReq 0 10 [1] 7)).1.message =
      "Chunk already uploaded (idempotent)" ∧
    (chunkPost cexDupA (mkReq 1 2 [2] 7)).1.progress = some 100 ∧
    (chunkPost cexDupB (mkReq 0 10 [1] 7)).1.progress = some 20 := by
  refine ⟨?_, ?_, ?_, ?_⟩ <;> decide

/-! ## Lemmas about the abort handler -/

theorem cleanupFold_preserves_none (uf : List String) (k : String) :
    ∀ (chunks : List (Int × ChunkInfo)) (acc : List (String × List Nat) × Nat),
      mapGet acc.1 k = none →
      mapGet (chunks.foldl (cleanupStep uf) acc).1 k = none := by
  intro chunks
  induction chunks with
  | nil => intro acc h; simpa using h
  | cons q rest ih =>
    intro acc h
    rw [List.foldl_cons]
    apply ih
    unfold cleanupStep
    by_cases h1 : q.2.isCloudStorage = true
    · rw [if_neg (by simp [h1])]
      exact h
    · rw [if_pos (by simp [h1])]
      by_cases h2 : mapHas acc.1 (tempPath q.2.filename) = true ∧
        ¬ tempPath q.2.filename ∈ uf
      · rw [if_pos h2]
        exact mapGet_mapDelete_none _ h
      · rw [if_neg h2]
        exact h

theorem cleanupFold_removes (uf : List String) :
    ∀ (chunks : List (Int × ChunkInfo)) (acc : List (String × List Nat) × Nat)
      (p : Int × ChunkInfo), p ∈ chunks → p.2.isCloudStorage = false →
      ¬ tempPath p.2.filename ∈ uf →
      mapGet (chunks.foldl (cleanupStep uf) acc).1 (tempPath p.2.filename) = none := by
  intro chunks
  induction chunks with
  | nil => intro acc p hp; simp at hp
  | cons q rest ih =>
    intro acc p hp hpc hpf
    rcases List.mem_cons.mp hp with h | h
    · subst h
      rw [List.foldl_cons]
      apply cleanupFold_preserves_none
      unfold cleanupStep
      rw [if_pos (by simp [hpc])]
      by_cases h2 : mapHas acc.1 (tempPath p.2.filename) = true
      · rw [if_pos ⟨h2, hpf⟩]
        exact mapGet_mapDelete_self _ _
      · rw [if_neg (fun hc => h2 hc.1)]
        exact mapGet_none_of_has_false (by simpa using h2)
    · rw [List.foldl_cons]
      exact ih _ p h hpc hpf

/-- **C6**: for every nonempty session identifier — including identifiers
never created or already aborted — `abort` responds 200/success; the
session record is absent afterwards, and when the session existed the
record is removed and every persisted local chunk artifact whose `unlink`
does not fail is deleted (individual failures are tolerated: the response
is success for *every* `uf`).  (The handler rejects only the empty string,
which `generateUploadId` can never produce.) -/
theorem abortPost_contract (st : ServerState) (uploadId : String) (uf : List String)
    (hid : uploadId ≠ "") :
    (abortPost st uploadId uf).1.status = 200 ∧
    (abortPost st uploadId uf).1.success = true ∧
    mapGet (abortPost st uploadId uf).2.uploadSessions uploadId = none ∧
    (∀ s, mapGet st.uploadSessions uploadId = some s →
      (abortPost st uploadId uf).2.uploadSessions = mapDelete st.uploadSessions uploadId ∧
      (s.useCloudStorage = false →
        ∀ p ∈ s.chunks, p.2.isCloudStorage = false → ¬ tempPath p.2.filename ∈ uf →
          mapGet (abortPost st uploadId uf).2.files (tempPath p.2.filename) = none)) := by
  cases hget : mapGet st.uploadSessions uploadId with
  | none =>
    refine ⟨by simp [abortPost, hid, hget], by simp [abortPost, hid, hget],
      by simp [abortPost, hid, hget], ?_⟩
    intro s hs
    exact absurd hs (by simp)
  | some s1 =>
    have h2 : (abortPost st uploadId uf).2.uploadSessions =
        mapDelete st.uploadSessions uploadId := by
      simp [abortPost, hid, hget]
    refine ⟨by simp [abortPost, hid, hget], by simp [abortPost, hid, hget], ?_, ?_⟩
    · rw [h2]
      exact mapGet_mapDelete_self _ _
    · intro s hs
      obtain rfl : s1 = s := Option.some.inj hs
      refine ⟨h2, ?_⟩
      intro hcloud p hp hpc hpf
      have hf : (abortPost st uploadId uf).2.files =
          (cleanupLocalFiles st.files s1 uf).1 := by
        simp [abortPost, hid, hget, hcloud]
      rw [hf]
      unfold cleanupLocalFiles
      exact cleanupFold_removes uf s1.chunks (st.files, 0) p hp hpc hpf

/-- **C6** witness: aborting the one-chunk session succeeds, removes the
session and its temp chunk file, and aborting an unknown identifier also
succeeds with 200. -/
theorem abortPost_contract_witness :
    (abortPost sampleCompleteState "u" []).1.success = true ∧
    mapGet (abortPost sampleCompleteState "u" []).2.uploadSessions "u" = none ∧
    mapGet (abortPost sampleCompleteState "u" []).2.files
      (tempPath (chunkFilename "u" 0)) = none ∧
    (abortPost emptyState "unknown" []).1.success = true ∧
    (abortPost emptyState "unknown" []).1.status = 200 := by
  have h1 := abortPost_contract sampleCompleteState "u" [] (by decide)
  have h2 := abortPost_contract emptyState "unknown" [] (by decide)
  refine ⟨h1.2.1, h1.2.2.1, ?_, h2.2.1, h2.1⟩
  exact (h1.2.2.2 sampleComplete (by decide)).2 (by decide)
    (0, ⟨chunkFilename "u" 0, 3, 7, false⟩) (by decide) (by decide) (by simp)

/-- Exhaustive description of one receiver step on an existing session:
the stored session always ends with `totalChunks` equal to the declared
value; any reported progress equals the stored counter over the declared
total; and the ledger either is unchanged (rejection, duplicate, write
failure) or gains exactly the fresh in-range index. -/
theorem chunkPost_step_cases (st : ServerState) (r : ChunkReq) (s : Session)
    (hid : r.uploadId ≠ "") (hget : mapGet st.uploadSessions r.uploadId = some s) :
    ∃ s', mapGet (chunkPost st r).2.uploadSessions r.uploadId = some s' ∧
      s'.totalChunks = r.totalChunks ∧
      ((chunkPost st r).1.progress = none ∨
        (chunkPost st r).1.progress = some (progressOf s'.uploadedChunks r.totalChunks)) ∧
      ((s'.chunks = s.chunks ∧ s'.uploadedChunks = s.uploadedChunks) ∨
       (0 ≤ r.chunkIndex ∧ r.chunkIndex < r.totalChunks ∧
        mapHas s.chunks r.chunkIndex = false ∧
        ∃ info, s'.chunks = mapSet s.chunks r.chunkIndex info ∧
          s'.uploadedChunks = s'.chunks.length)) := by
  rw [chunkPost_eq_core st r s hid hget]
  by_cases hout : r.chunkIndex < 0 ∨ r.chunkIndex ≥ r.totalChunks
  · refine ⟨{ s with lastActivity := r.now, totalChunks := r.totalChunks },
      ?_, rfl, ?_, Or.inl ⟨rfl, rfl⟩⟩
    · simp [chunkPostCore, hout, mapGet_mapSet_self]
    · left
      simp [chunkPostCore, hout]
  · by_cases hdup : mapHas s.chunks r.chunkIndex = true
    · refine ⟨{ s with lastActivity := r.now, totalChunks := r.totalChunks },
        ?_, rfl, ?_, Or.inl ⟨rfl, rfl⟩⟩
      · simp [chunkPostCore, hout, hdup, mapGet_mapSet_self]
      · right
        simp [chunkPostCore, hout, hdup]
    · have hin : 0 ≤ r.chunkIndex ∧ r.chunkIndex < r.totalChunks := by
        push_neg at hout
        exact ⟨hout.1, hout.2⟩
      by_cases hcloud : s.useCloudStorage = true
      · refine ⟨{ s with
            lastActivity := r.now
            totalChunks := r.totalChunks
            chunks := mapSet s.chunks r.chunkIndex
              { filename := memChunkKey r.uploadId r.chunkIndex
                size := r.chunk.length
                uploadedAt := r.now
                isCloudStorage := true }
            uploadedChunks := (mapSet s.chunks r.chunkIndex
              { filename := memChunkKey r.uploadId r.chunkIndex
                size := r.chunk.length
                uploadedAt := r.now
                isCloudStorage := true }).length },
          ?_, rfl, ?_, Or.inr ⟨hin.1, hin.2, by simpa using hdup, _, rfl, rfl⟩⟩
        · simp [chunkPostCore, hout, hdup, hcloud, mapGet_mapSet_self]
        · right
          simp [chunkPostCore, hout, hdup, hcloud]
      · by_cases hw : r.writeOk = true
        · refine ⟨{ s with
              lastActivity := r.now
              totalChunks := r.totalChunks
              chunks := mapSet s.chunks r.chunkIndex
                { filename := chunkFilename r.uploadId r.chunkIndex
                  size := r.chunk.length
                  uploadedAt := r.now
                  isCloudStorage := false }
              uploadedChunks := (mapSet s.chunks r.chunkIndex
                { filename := chunkFilename r.uploadId r.chunkIndex
                  size := r.chunk.length
                  uploadedAt := r.now
                  isCloudStorage := false }).length },
            ?_, rfl, ?_, Or.inr ⟨hin.1, hin.2, by simpa using hdup, _, rfl, rfl⟩⟩
          · simp [chunkPostCore, hout, hdup, hcloud, hw, mapGet_mapSet_self]
          · right
            simp [chunkPostCore, hout, hdup, hcloud, hw]
        · refine ⟨{ s with lastActivity := r.now, totalChunks := r.totalChunks },
            ?_, rfl, ?_, Or.inl ⟨rfl, rfl⟩⟩
          · simp [chunkPostCore, hout, hdup, hcloud, hw, mapGet_mapSet_self]
          · left
            simp [chunkPostCore, hout, hdup, hcloud, hw]

theorem progressOf_mono (t : Int) {u u' : Nat} (h : u ≤ u') :
    progressOf u t ≤ progressOf u' t := by
  unfold progressOf
  exact Nat.div_le_div_right (by omega)

theorem mapHas_false_forall {α β : Type} [DecidableEq α] {m : List (α × β)} {k : α}
    (h : mapHas m k = false) : ∀ p ∈ m, p.1 ≠ k := by
  intro p hp
  simp only [mapHas, List.any_eq_false, decide_eq_true_eq] at h
  exact h p hp

theorem LedgerInv_step (t : Int) (r : ChunkReq) (s s1 : Session)
    (hrt : r.totalChunks = t) (hinv : LedgerInv t s)
    (hcase : (s1.chunks = s.chunks ∧ s1.uploadedChunks = s.uploadedChunks) ∨
      (0 ≤ r.chunkIndex ∧ r.chunkIndex < r.totalChunks ∧
       mapHas s.chunks r.chunkIndex = false ∧
       ∃ info, s1.chunks = mapSet s.chunks r.chunkIndex info ∧
         s1.uploadedChunks = s1.chunks.length)) :
    LedgerInv t s1 ∧ s.uploadedChunks ≤ s1.uploadedChunks := by
  rcases hcase with ⟨hc, hu⟩ | ⟨hnn, hlt, hhas, info, hc, hu⟩
  · refine ⟨⟨?_, ?_, ?_⟩, ?_⟩
    · rw [hu, hc]
      exact hinv.1
    · rw [hc]
      exact hinv.2.1
    · rw [hc]
      exact hinv.2.2
    · rw [hu]
  · have happ : s1.chunks = s.chunks ++ [(r.chunkIndex, info)] := by
      rw [hc, mapSet_of_not_has _ hhas]
    have hdisj : ∀ p ∈ s.chunks, p.1 ≠ r.chunkIndex := mapHas_false_forall hhas
    refine ⟨⟨hu, ?_, ?_⟩, ?_⟩
    · rw [happ, List.map_append]
      refine List.Nodup.append hinv.2.1 (by simp) ?_
      intro a ha hb
      simp only [List.map_cons, List.map_nil, List.mem_singleton] at hb
      subst hb
      rcases List.mem_map.mp ha with ⟨p, hp, hpa⟩
      exact hdisj p hp hpa
    · intro p hp
      rw [happ] at hp
      rcases List.mem_append.mp hp with h | h
      · exact hinv.2.2 p h
      · rw [List.mem_singleton] at h
        subst h
        exact ⟨hnn, hrt ▸ hlt⟩
    · rw [hu, happ, List.length_append]
      rw [hinv.1]
      simp

theorem runChunkList_inv (t : Int) (id : String) (hid : id ≠ "") :
    ∀ (reqs : List ChunkReq) (st : ServerState) (s : Session),
      (∀ r ∈ reqs, r.uploadId = id ∧ r.totalChunks = t) →
      mapGet st.uploadSessions id = some s → LedgerInv t s →
      ∃ s', mapGet (runChunkList st reqs).2.uploadSessions id = some s' ∧
        LedgerInv t s' ∧
        s.uploadedChunks ≤ s'.uploadedChunks ∧
        List.Pairwise (· ≤ ·) ((runChunkList st reqs).1.filterMap
          (fun res => res.progress)) ∧
        ∀ q ∈ (runChunkList st reqs).1.filterMap (fun res => res.progress),
          progressOf s.uploadedChunks t ≤ q ∧ q ≤ progressOf s'.uploadedChunks t := by
  intro reqs
  induction reqs with
  | nil =>
    intro st s hcons hget hinv
    exact ⟨s, by simpa [runChunkList] using hget, hinv, le_refl _,
      by simp [runChunkList], by simp [runChunkList]⟩
  | cons r rest ih =>
    intro st s hcons hget hinv
    obtain ⟨hrid, hrt⟩ := hcons r (List.mem_cons_self _ _)
    have hid' : r.uploadId ≠ "" := by rw [hrid]; exact hid
    have hget' : mapGet st.uploadSessions r.uploadId = some s := by
      rw [hrid]
      exact hget
    obtain ⟨s1, hget1, htot1, hprog1, hcase⟩ := chunkPost_step_cases st r s hid' hget'
    rw [hrid] at hget1
    obtain ⟨hinv1, hu1⟩ := LedgerInv_step t r s s1 hrt hinv hcase
    obtain ⟨s2, hget2, hinv2, hu2, hpair, hbounds⟩ :=
      ih (chunkPost st r).2 s1 (fun q hq => hcons q (List.mem_cons_of_mem _ hq))
        hget1 hinv1
    have hrun1 : (runChunkList st (r :: rest)).1 =
        (chunkPost st r).1 :: (runChunkList (chunkPost st r).2 rest).1 := by
      simp [runChunkList]
    have hrun2 : (runChunkList st (r :: rest)).2 =
        (runChunkList (chunkPost st r).2 rest).2 := by
      simp [runChunkList]
    refine ⟨s2, by rw [hrun2]; exact hget2, hinv2, le_trans hu1 hu2, ?_, ?_⟩
    · rw [hrun1]
      rcases hprog1 with hp | hp
      · rw [List.filterMap_cons, hp]
        exact hpair
      · rw [List.filterMap_cons, hp]
        refine List.Pairwise.cons ?_ hpair
        intro q hq
        have := (hbounds q hq).1
        calc progressOf s1.uploadedChunks r.totalChunks
            = progressOf s1.uploadedChunks t := by rw [hrt]
          _ ≤ q := this
    · rw [hrun1]
      intro q hq
      rcases hprog1 with hp | hp
      · rw [List.filterMap_cons, hp] at hq
        have hb := hbounds q hq
        exact ⟨le_trans (progressOf_mono t hu1) hb.1, hb.2⟩
      · rw [List.filterMap_cons, hp] at hq
        rcases List.mem_cons.mp hq with h | h
        · subst h
          constructor
          · rw [hrt]
            exact progressOf_mono t hu1
          · rw [hrt]
            exact progressOf_mono t hu2
        · have hb := hbounds q h
          exact ⟨le_trans (progressOf_mono t hu1) hb.1, hb.2⟩


theorem LedgerInv_length_le (t : Int) (s : Session) (h : LedgerInv t s) :
    s.chunks.length ≤ t.toNat := by
  have hkeys : ∀ k ∈ s.chunks.map Prod.fst, 0 ≤ k ∧ k < t := by
    intro k hk
    rcases List.mem_map.mp hk with ⟨p, hp, hpk⟩
    exact hpk ▸ h.2.2 p hp
  have hnodup2 : ((s.chunks.map Prod.fst).map Int.toNat).Nodup := by
    apply List.Nodup.map_on ?_ h.2.1
    intro a ha b hb hab
    have h1 := (hkeys a ha).1
    have h2 := (hkeys b hb).1
    omega
  have hsub : ((s.chunks.map Prod.fst).map Int.toNat).toFinset ⊆
      Finset.range t.toNat := by
    intro n hn
    rw [List.mem_toFinset] at hn
    rw [Finset.mem_range]
    rcases List.mem_map.mp hn with ⟨k, hk, hkn⟩
    have := hkeys k hk
    omega
  have hcard := Finset.card_le_card hsub
  rw [Finset.card_range, List.toFinset_card_of_nodup hnodup2] at hcard
  simpa using hcard

/-- **C2** (amended): (a) a chunk submission whose index lies outside
`[0, totalChunks)` is never accepted, for every state; (b) provided every
chunk request of the sequence declares the same `totalChunks = t` (as the
reference client does), a session whose ledger satisfies `LedgerInv t`
keeps, across the whole sequence, a ledger of at most `t` entries and a
received-chunk counter of at most `t`.  (Without the equal-`totalChunks`
proviso the size bound is refuted by `chunk_ledger_exceeds_total_cex`:
the receiver adopts each request's declared total, so a later smaller
declaration shrinks `totalChunks` below the ledger size.) -/
theorem chunk_index_and_ledger_invariant :
    (∀ (st : ServerState) (r : ChunkReq),
        r.chunkIndex < 0 ∨ r.chunkIndex ≥ r.totalChunks →
        (chunkPost st r).1.success = false) ∧
    (∀ (t : Int) (id : String) (reqs : List ChunkReq) (st : ServerState) (s : Session),
        id ≠ "" → (∀ r ∈ reqs, r.uploadId = id ∧ r.totalChunks = t) →
        mapGet st.uploadSessions id = some s → LedgerInv t s →
        ∀ s', mapGet (runChunkList st reqs).2.uploadSessions id = some s' →
          s'.chunks.length ≤ t.toNat ∧ s'.uploadedChunks ≤ t.toNat) := by
  constructor
  · intro st r hout
    by_cases hid : r.uploadId = ""
    · simp [chunkPost, hid]
    · cases hget : mapGet st.uploadSessions r.uploadId with
      | none => simp [chunkPost, hid, hget]
      | some s =>
        rw [chunkPost_eq_core st r s hid hget]
        simp [chunkPostCore, hout]
  · intro t id reqs st s hid hcons hget hinv s' hget'
    obtain ⟨s2, hget2, hinv2, h3, h4, h5⟩ :=
      runChunkList_inv t id hid reqs st s hcons hget hinv
    have hs : s' = s2 := by
      rw [hget'] at hget2
      exact Option.some.inj hget2
    subst hs
    have hlen := LedgerInv_length_le t s' hinv2
    refine ⟨hlen, ?_⟩
    rw [hinv2.1]
    exact hlen

/-- **C2** witness: an out-of-range index (9 with declared total 2) is
not accepted, and running a request against the one-chunk session keeps
ledger size and counter at most the declared total 1. -/
theorem chunk_invariant_witness :
    (chunkPost emptyState (mkReq 9 2 [1] 7)).1.success = false ∧
    ({ sampleComplete with lastActivity := 8 } : Session).chunks.length ≤ 1 ∧
    ({ sampleComplete with lastActivity := 8 } : Session).uploadedChunks ≤ 1 := by
  have h := chunk_index_and_ledger_invariant
  refine ⟨h.1 emptyState (mkReq 9 2 [1] 7) (by decide), ?_⟩
  have h2 := h.2 1 "u" [mkReq 0 1 [9] 8] sampleCompleteState sampleComplete
    (by decide) (by decide) (by decide) ⟨by decide, by decide, by decide⟩
    { sampleComplete with lastActivity := 8 } (by decide)
  exact h2

/-- **C2** counterexample: after accepting chunks 0 and 1 with declared
total 2, a duplicate submission of index 0 declaring total 1 succeeds and
leaves a reachable session whose ledger has 2 entries while
`totalChunks = 1` — the received-chunk ledger size exceeds `totalChunks`
(the condition the code itself only `console.warn`s about). -/
theorem chunk_ledger_exceeds_total_cex :
    (chunkPost cexStateB (mkReq 0 1 [1] 7)).1.success = true ∧
    (mapGet cexStateC.uploadSessions "u").map (fun s => s.chunks.length) = some 2 ∧
    (mapGet cexStateC.uploadSessions "u").map Session.totalChunks = some 1 := by
  refine ⟨?_, ?_, ?_⟩ <;> decide

/-- **C7** (amended): provided every chunk request of the sequence
declares the same `totalChunks = t`, the progress values reported by the
receiver across the sequence (every response that carries a progress
value, i.e. every accepted submission, duplicates included) are pairwise
non-decreasing in sequence order.  (Without the proviso monotonicity is
refuted by `chunk_progress_regress_cex`.) -/
theorem chunkPost_progress_monotone (t : Int) (id : String) (reqs : List ChunkReq)
    (st : ServerState) (s : Session) (hid : id ≠ "")
    (hcons : ∀ r ∈ reqs, r.uploadId = id ∧ r.totalChunks = t)
    (hget : mapGet st.uploadSessions id = some s) (hinv : LedgerInv t s) :
    List.Pairwise (· ≤ ·)
      ((runChunkList st reqs).1.filterMap (fun res => res.progress)) := by
  obtain ⟨s2, h1, h2, h3, hpair, h5⟩ :=
    runChunkList_inv t id hid reqs st s hcons hget hinv
  exact hpair

/-- **C7** witness: submitting chunks 0 and 1 of a 2-chunk upload yields
non-decreasing reported progress. -/
theorem chunkPost_progress_monotone_witness :
    List.Pairwise (· ≤ ·) ((runChunkList sampleInit
      [mkReq 0 2 [1] 7, mkReq 1 2 [2] 7]).1.filterMap (fun res => res.progress)) :=
  chunkPost_progress_monotone 2 "u" [mkReq 0 2 [1] 7, mkReq 1 2 [2] 7] sampleInit
    sampleInitSession (by decide) (by decide) (by decide)
    ⟨by decide, by decide, by decide⟩

/-- **C7** counterexample: two accepted, non-duplicate submissions with
decreasing reported progress.  Index 0 declaring total 1 reports progress
100; index 1 declaring total 10 is then accepted (fresh index, success
message `Chunk 2/10 uploaded successfully`) and reports progress 20. -/
theorem chunk_progress_regress_cex :
    (chunkPost sampleInit (mkReq 0 1 [1] 7)).1.success = true ∧
    (chunkPost sampleInit (mkReq 0 1 [1] 7)).1.progress = some 100 ∧
    (chunkPost cexProgA (mkReq 1 10 [2] 7)).1.success = true ∧
    (chunkPost cexProgA (mkReq 1 10 [2] 7)).1.message =
      "Chunk 2/10 uploaded successfully" ∧
    (chunkPost cexProgA (mkReq 1 10 [2] 7)).1.progress = some 20 := by
  refine ⟨?_, ?_, ?_, ?_, ?_⟩ <;> decide

/-! ## Lemmas for the round-trip claim -/


theorem repDigits_eq (n : Nat) :
    repDigits n = if n < 10 then [Nat.digitChar n]
      else repDigits (n / 10) ++ [Nat.digitChar (n % 10)] := by
  rw [repDigits]

theorem toDigitsCore_eq_repDigits :
    ∀ (fuel n : Nat) (ds : List Char), n < fuel →
      Nat.toDigitsCore 10 fuel n ds = repDigits n ++ ds := by
  intro fuel
  induction fuel with
  | zero => intro n ds h; exact absurd h (Nat.not_lt_zero n)
  | succ f ih =>
    intro n ds h
    rw [Nat.toDigitsCore]
    by_cases h0 : n / 10 = 0
    · rw [if_pos h0]
      have hn : n < 10 := by
        by_contra hge
        rw [Nat.div_eq_zero_iff (by norm_num)] at h0
        exact hge h0
      rw [repDigits_eq n, if_pos hn, Nat.mod_eq_of_lt hn]
      rfl
    · rw [if_neg h0]
      have hn : ¬ n < 10 := fun hlt => h0 (Nat.div_eq_of_lt hlt)
      have hfuel : n / 10 < f := by
        have h1 : n / 10 < n := Nat.div_lt_self (by omega) (by norm_num)
        omega
      rw [ih (n / 10) (Nat.digitChar (n % 10) :: ds) hfuel]
      rw [repDigits_eq n, if_neg hn]
      simp

theorem repr_eq_repDigits (n : Nat) : Nat.repr n = (repDigits n).asString := by
  unfold Nat.repr Nat.toDigits
  rw [toDigitsCore_eq_repDigits (n + 1) n [] (Nat.lt_succ_self n), List.append_nil]

theorem repDigits_ne_nil (n : Nat) : repDigits n ≠ [] := by
  rw [repDigits_eq n]
  by_cases h : n < 10
  · simp [h]
  · simp [h]

theorem digitChar_inj_lt : ∀ a < 10, ∀ b < 10,
    Nat.digitChar a = Nat.digitChar b → a = b := by decide

theorem repDigits_injective : ∀ m n : Nat, repDigits m = repDigits n → m = n := by
  intro m
  induction m using Nat.strong_induction_on with
  | _ m ih =>
    intro n h
    by_cases hm : m < 10
    · by_cases hn : n < 10
      · rw [repDigits_eq m, if_pos hm, repDigits_eq n, if_pos hn] at h
        simp only [List.cons.injEq, and_true] at h
        exact digitChar_inj_lt m hm n hn h
      · exfalso
        rw [repDigits_eq m, if_pos hm, repDigits_eq n, if_neg hn] at h
        have hlen := congrArg List.length h
        rw [List.length_append] at hlen
        simp only [List.length_singleton] at hlen
        have h0 : (repDigits (n / 10)).length = 0 := by omega
        exact repDigits_ne_nil (n / 10) (List.length_eq_zero.mp h0)
    · by_cases hn : n < 10
      · exfalso
        rw [repDigits_eq m, if_neg hm, repDigits_eq n, if_pos hn] at h
        have hlen := congrArg List.length h
        rw [List.length_append] at hlen
        simp only [List.length_singleton] at hlen
        have h0 : (repDigits (m / 10)).length = 0 := by omega
        exact repDigits_ne_nil (m / 10) (List.length_eq_zero.mp h0)
      · rw [repDigits_eq m, if_neg hm, repDigits_eq n, if_neg hn] at h
        obtain ⟨h1, h2⟩ := List.append_inj' h (by simp)
        have hd : m / 10 = n / 10 :=
          ih (m / 10) (Nat.div_lt_self (by omega) (by norm_num)) (n / 10) h1
        simp only [List.cons.injEq, and_true] at h2
        have hm2 : m % 10 = n % 10 :=
          digitChar_inj_lt _ (Nat.mod_lt _ (by norm_num)) _
            (Nat.mod_lt _ (by norm_num)) h2
        omega

theorem natRepr_injective {m n : Nat} (h : Nat.repr m = Nat.repr n) : m = n := by
  rw [repr_eq_repDigits, repr_eq_repDigits] at h
  apply repDigits_injective
  have := congrArg String.data h
  simpa [List.asString] using this

theorem string_data_append (a b : String) : (a ++ b).data = a.data ++ b.data := rfl

theorem string_append_right_inj {a b c : String} (h : a ++ b = a ++ c) : b = c := by
  have hd := congrArg String.data h
  rw [string_data_append, string_data_append] at hd
  have hbc := List.append_cancel_left hd
  cases b
  cases c
  simp only at hbc
  rw [hbc]

theorem chunkFilename_inj (uploadId : String) {i j : Nat}
    (h : chunkFilename uploadId (Int.ofNat i) = chunkFilename uploadId (Int.ofNat j)) :
    i = j := by
  unfold chunkFilename at h
  have h2 : Nat.repr i = Nat.repr j := string_append_right_inj h
  exact natRepr_injective h2

theorem tempPath_inj {a b : String} (h : tempPath a = tempPath b) : a = b := by
  unfold tempPath at h
  exact string_append_right_inj h

theorem videoPath_ne_tempPath (a b : String) : videoPath a ≠ tempPath b := by
  intro h
  have hd := congrArg String.data h
  unfold videoPath tempPath UPLOAD_DIR TEMP_DIR at hd
  simp only [string_data_append] at hd
  have h17 := congrArg (fun l => l[17]?) hd
  simp only at h17
  rw [List.getElem?_append_left (by decide), List.getElem?_append_left (by decide),
    List.getElem?_append_left (by decide)] at h17
  exact absurd h17 (by decide)

theorem sliceFile_eq_take (file : List Nat) (c i : Nat) :
    sliceFile file c i = (file.drop (i * c)).take c := by
  unfold sliceFile
  by_cases h : (i + 1) * c ≤ file.length
  · have he : min ((i + 1) * c) file.length - i * c = c := by
      rw [min_eq_left h]
      have : (i + 1) * c = i * c + c := by ring
      omega
    rw [he]
  · have he : min ((i + 1) * c) file.length - i * c = file.length - i * c := by
      rw [min_eq_right (le_of_not_le h)]
    rw [he]
    have h1 : (file.drop (i * c)).take (file.length - i * c) = file.drop (i * c) :=
      List.take_of_length_le (by simp)
    have h2 : (file.drop (i * c)).take c = file.drop (i * c) := by
      apply List.take_of_length_le
      rw [List.length_drop]
      have h3 : (i + 1) * c = i * c + c := by ring
      omega
    rw [h1, h2]

theorem le_ceilDiv_mul (a c : Nat) (hc : 0 < c) : a ≤ ceilDiv a c * c := by
  rcases Nat.eq_zero_or_pos a with rfl | ha
  · simp
  · unfold ceilDiv
    have h1 : a + c - 1 = a - 1 + c := by omega
    rw [h1, Nat.add_div_right _ hc]
    have hq := Nat.div_add_mod (a - 1) c
    have hr : (a - 1) % c < c := Nat.mod_lt _ hc
    have hexp : ((a - 1) / c + 1) * c = c * ((a - 1) / c) + c := by ring
    omega

theorem flatten_chunks (c : Nat) :
    ∀ (n : Nat) (l : List Nat), l.length ≤ n * c →
      ((List.range n).map (fun i => (l.drop (i * c)).take c)).flatten = l := by
  intro n
  induction n with
  | zero =>
    intro l h
    simp at h
    simp [h]
  | succ n ih =>
    intro l h
    rw [List.range_succ_eq_map, List.map_cons, List.flatten_cons, List.map_map]
    have hcomp : ((fun i => (l.drop (i * c)).take c) ∘ Nat.succ) =
        (fun i => ((l.drop c).drop (i * c)).take c) := by
      funext i
      show (l.drop (Nat.succ i * c)).take c = ((l.drop c).drop (i * c)).take c
      rw [List.drop_drop]
      congr 2
      rw [Nat.succ_eq_add_one]
      ring
    rw [hcomp, ih (l.drop c) (by
      rw [List.length_drop]
      have : (n + 1) * c = n * c + c := by ring
      omega)]
    simp

theorem mapGet_map_of_key_inj {β : Type} (key : Nat → String) (val : Nat → β)
    (hinj : ∀ a b, key a = key b → a = b) :
    ∀ (p : List Nat) (i : Nat), i ∈ p →
      mapGet (p.map (fun j => (key j, val j))) (key i) = some (val i) := by
  intro p
  induction p with
  | nil => intro i hi; simp at hi
  | cons j rest ih =>
    intro i hi
    rw [List.map_cons]
    by_cases hj : key j = key i
    · obtain rfl : j = i := hinj j i hj
      exact mapGet_cons_self _ _ _
    · rw [mapGet_cons_ne _ _ hj]
      rcases List.mem_cons.mp hi with h | h
      · exact absurd (congrArg key h.symm) hj
      · exact ih i h

theorem mapGet_map_of_key_inj_int {β : Type} (key : Nat → Int) (val : Nat → β)
    (hinj : ∀ a b, key a = key b → a = b) :
    ∀ (p : List Nat) (i : Nat), i ∈ p →
      mapGet (p.map (fun j => (key j, val j))) (key i) = some (val i) := by
  intro p
  induction p with
  | nil => intro i hi; simp at hi
  | cons j rest ih =>
    intro i hi
    rw [List.map_cons]
    by_cases hj : key j = key i
    · obtain rfl : j = i := hinj j i hj
      exact mapGet_cons_self _ _ _
    · rw [mapGet_cons_ne _ _ hj]
      rcases List.mem_cons.mp hi with h | h
      · exact absurd (congrArg key h.symm) hj
      · exact ih i h

theorem mapHas_map_of_key_inj_false {α β : Type} [DecidableEq α]
    (key : Nat → α) (val : Nat → β) (hinj : ∀ a b, key a = key b → a = b)
    (p : List Nat) (i : Nat) (hi : ¬ i ∈ p) :
    mapHas (p.map (fun j => (key j, val j))) (key i) = false := by
  rw [mapHas, List.any_eq_false]
  intro q hq
  rcases List.mem_map.mp hq with ⟨j, hj, hqe⟩
  subst hqe
  simp only [decide_eq_true_eq]
  intro hkey
  exact hi (hinj j i hkey ▸ hj)



theorem mapSet_singleton_self {α β : Type} [DecidableEq α] (k : α) (v v1 : β) :
    mapSet [(k, v)] k v1 = [(k, v1)] := by
  simp [mapSet, mapHas]

theorem tempChunkPath_inj (uploadId : String) (a b : Nat)
    (h : tempPath (chunkFilename uploadId (Int.ofNat a)) =
      tempPath (chunkFilename uploadId (Int.ofNat b))) : a = b :=
  chunkFilename_inj uploadId (tempPath_inj h)

theorem c1_step (base : Session) (uploadId : String) (file : List Nat) (c now : Nat)
    (tc : Int) (done : List Nat) (i : Nat)
    (hid : uploadId ≠ "") (hcloud : base.useCloudStorage = false)
    (hi : i < totalChunksOf file c) (hnew : ¬ i ∈ done) :
    (chunkPost (c1State base uploadId file c now tc done)
        (clientReq uploadId file c now i)).2 =
      c1State base uploadId file c now (Int.ofNat (totalChunksOf file c)) (done ++ [i]) := by
  have hget : mapGet (c1State base uploadId file c now tc done).uploadSessions uploadId =
      some { base with
        chunks := done.map (fun j => (Int.ofNat j, c1Info uploadId file c now j))
        uploadedChunks := done.length
        totalChunks := tc
        lastActivity := now } := mapGet_cons_self _ _ _
  rw [chunkPost_eq_core _ _ _ hid hget]
  have hin : ¬ ((clientReq uploadId file c now i).chunkIndex < 0 ∨
      (clientReq uploadId file c now i).chunkIndex ≥
        (clientReq uploadId file c now i).totalChunks) := by
    push_neg
    constructor
    · exact Int.ofNat_nonneg i
    · exact Int.ofNat_lt.mpr hi
  have hhaschunks : mapHas (done.map (fun j => (Int.ofNat j, c1Info uploadId file c now j)))
      (Int.ofNat i) = false :=
    mapHas_map_of_key_inj_false Int.ofNat _ (fun a b h => Int.ofNat.inj h) done i hnew
  have hhasfiles : mapHas (done.map (fun j =>
      (tempPath (chunkFilename uploadId (Int.ofNat j)), sliceFile file c j)))
      (tempPath (chunkFilename uploadId (Int.ofNat i))) = false :=
    mapHas_map_of_key_inj_false _ _ (tempChunkPath_inj uploadId) done i hnew
  have hin2 : ¬ ((Int.ofNat i : Int) < 0 ∨ (Int.ofNat i : Int) ≥ Int.ofNat (totalChunksOf file c)) := by
    push_neg
    exact ⟨Int.ofNat_nonneg i, Int.ofNat_lt.mpr hi⟩
  simp only [chunkPostCore, clientReq]
  rw [if_neg hin2]
  simp only [hhaschunks, Bool.false_eq_true, if_false, hcloud, not_true, ite_false]
  simp [c1State, c1Info, mapSet_singleton_self, List.map_append, hcloud]
  refine ⟨⟨mapSet_of_not_has _ hhaschunks, ?_⟩, mapSet_of_not_has _ hhasfiles⟩
  refine Eq.trans (congrArg List.length (mapSet_of_not_has _ hhaschunks)) ?_
  simp

theorem c1_fold (base : Session) (uploadId : String) (file : List Nat) (c now : Nat)
    (hid : uploadId ≠ "") (hcloud : base.useCloudStorage = false) :
    ∀ (p done : List Nat), (∀ i ∈ p, i < totalChunksOf file c) →
      (done ++ p).Nodup →
      (runChunkList
        (c1State base uploadId file c now (Int.ofNat (totalChunksOf file c)) done)
        (p.map (clientReq uploadId file c now))).2 =
      c1State base uploadId file c now (Int.ofNat (totalChunksOf file c)) (done ++ p) := by
  intro p
  induction p with
  | nil =>
    intro done h1 h2
    simp [runChunkList]
  | cons i rest ih =>
    intro done h1 h2
    have hnew : ¬ i ∈ done := fun hmem =>
      ((List.nodup_append.mp h2).2.2 hmem) (List.mem_cons_self _ _)
    have hrun : (runChunkList
        (c1State base uploadId file c now (Int.ofNat (totalChunksOf file c)) done)
        ((i :: rest).map (clientReq uploadId file c now))).2 =
        (runChunkList (chunkPost
          (c1State base uploadId file c now (Int.ofNat (totalChunksOf file c)) done)
          (clientReq uploadId file c now i)).2
          (rest.map (clientReq uploadId file c now))).2 := by
      simp [runChunkList]
    rw [hrun]
    rw [c1_step base uploadId file c now _ done i hid hcloud
      (h1 i (List.mem_cons_self _ _)) hnew]
    have h2' : ((done ++ [i]) ++ rest).Nodup := by
      rw [List.append_assoc]
      simpa using h2
    rw [ih (done ++ [i]) (fun j hj => h1 j (List.mem_cons_of_mem _ hj)) h2']
    rw [List.append_assoc]
    rfl


theorem c1_init (file : List Nat) (c : Nat) (fn ct tt tg uploadId : String) (now : Nat)
    (hfn : fn ≠ "") (hsize : file.length ≠ 0) (hmax : ¬ file.length > maxSize)
    (htt : jsTrim tt ≠ "") :
    (initPost emptyState
      { filename := fn, fileSize := file.length, contentType := ct,
        title := tt, tags := tg } now uploadId false false true).2 =
    c1State (c1Base fn ct tt tg uploadId file.length now) uploadId file c now
      (Int.ofNat (ceilDiv file.length (5 * 1024 * 1024))) [] := by
  have hval : ¬ (fn = "" ∨ file = [] ∨ jsTrim tt = "") := by
    push_neg
    refine ⟨hfn, ?_, htt⟩
    intro h
    exact hsize (by simp [h])
  simp [initPost, hval, hmax, cleanupExpiredSessions, mapSet, mapHas, emptyState,
    c1State, c1Base]

theorem c1_collect (uploadId : String) (file : List Nat) (c now : Nat) (p : List Nat) :
    ∀ is : List Nat, (∀ i ∈ is, i ∈ p) →
      collectLocalChunks
        (p.map (fun j => (tempPath (chunkFilename uploadId (Int.ofNat j)), sliceFile file c j)))
        (p.map (fun j => (Int.ofNat j, c1Info uploadId file c now j))) is =
      .ok (is.map (sliceFile file c)) := by
  intro is
  induction is with
  | nil => intro h; rfl
  | cons i rest ih =>
    intro hmem
    have hg1 : mapGet (p.map (fun j => (Int.ofNat j, c1Info uploadId file c now j)))
        (Int.ofNat i) = some (c1Info uploadId file c now i) :=
      mapGet_map_of_key_inj_int Int.ofNat _ (fun a b h => Int.ofNat.inj h) p i
        (hmem i (List.mem_cons_self _ _))
    have hg2 : mapGet (p.map (fun j =>
        (tempPath (chunkFilename uploadId (Int.ofNat j)), sliceFile file c j)))
        (tempPath (chunkFilename uploadId (Int.ofNat i))) = some (sliceFile file c i) :=
      mapGet_map_of_key_inj _ _ (tempChunkPath_inj uploadId) p i
        (hmem i (List.mem_cons_self _ _))
    have hfn : (c1Info uploadId file c now i).filename =
        chunkFilename uploadId (Int.ofNat i) := rfl
    rw [collectLocalChunks]
    simp only [hg1, hfn, hg2, ih (fun j hj => hmem j (List.mem_cons_of_mem _ hj))]
    rfl

theorem unlinkFold_preserves_videoPath (chunks : List (Int × ChunkInfo))
    (uf : List String) (f : String) :
    ∀ (is : List Nat) (fs : List (String × List Nat)),
      mapGet (is.foldl (fun fs2 i =>
          match mapGet chunks (Int.ofNat i) with
          | none => fs2
          | some info =>
            if tempPath info.filename ∈ uf then fs2
            else mapDelete fs2 (tempPath info.filename)) fs) (videoPath f) =
      mapGet fs (videoPath f) := by
  intro is
  induction is with
  | nil => intro fs; rfl
  | cons i rest ih =>
    intro fs
    rw [List.foldl_cons, ih]
    cases hg : mapGet chunks (Int.ofNat i) with
    | none => rfl
    | some info =>
      simp only
      by_cases hm : tempPath info.filename ∈ uf
      · rw [if_pos hm]
      · rw [if_neg hm]
        exact mapGet_mapDelete_ne fs (Ne.symm (videoPath_ne_tempPath f info.filename))

theorem c1_assemble (base : Session) (uploadId : String) (file : List Nat)
    (c now : Nat) (p : List Nat) (hc : 0 < c)
    (hperm : p.Perm (List.range (totalChunksOf file c))) :
    ∃ fs2,
      assembleChunksLocally
        (p.map (fun j => (tempPath (chunkFilename uploadId (Int.ofNat j)), sliceFile file c j)))
        { base with
          chunks := p.map (fun i => (Int.ofNat i, c1Info uploadId file c now i))
          uploadedChunks := p.length
          totalChunks := Int.ofNat (totalChunksOf file c)
          lastActivity := now } none [] =
        .ok ("/uploads/videos/" ++ base.finalFilename, fs2) ∧
      mapGet fs2 (videoPath base.finalFilename) = some file := by
  have hflat : ((List.range (totalChunksOf file c)).map (sliceFile file c)).flatten
      = file := by
    have hmapeq : (List.range (totalChunksOf file c)).map (sliceFile file c) =
        (List.range (totalChunksOf file c)).map (fun i => (file.drop (i * c)).take c) := by
      apply List.map_congr_left
      intro i hi
      exact sliceFile_eq_take file c i
    rw [hmapeq]
    exact flatten_chunks c (totalChunksOf file c) file (le_ceilDiv_mul file.length c hc)
  unfold assembleChunksLocally
  rw [c1_collect uploadId file c now p (List.range (Int.toNat (Int.ofNat (totalChunksOf file c))))
    (fun i hi => hperm.mem_iff.mpr (by simpa using hi))]
  simp only [Int.toNat_ofNat]
  refine ⟨_, rfl, ?_⟩
  rw [unlinkFold_preserves_videoPath]
  refine Eq.trans (mapGet_mapSet_self _ _ _) ?_
  have htn : (Int.ofNat (totalChunksOf file c)).toNat = totalChunksOf file c := rfl
  rw [htn, hflat]

/-- **C1**: round-trip.  For every file larger than one chunk (any bytes,
any chunk size `0 < c < file.length`, declared size within the 2GB limit),
the client split `totalChunks = ceil(size / c)` with slice `i` covering
`[i*c, min((i+1)*c, size))`, submitted in *any* order `p` (any permutation
of `0..totalChunks-1`), followed by completion, succeeds, and the artifact
written under the final video path is byte-for-byte the original file. -/
theorem chunked_upload_roundtrip (file : List Nat) (c : Nat)
    (uploadId fn ct tt tg : String) (now : Nat) (p : List Nat)
    (hc : 0 < c) (hlt : c < file.length) (hmax : file.length ≤ maxSize)
    (hid : uploadId ≠ "") (hfn : fn ≠ "") (htt : jsTrim tt ≠ "")
    (hperm : p.Perm (List.range (totalChunksOf file c))) :
    (completePost
        (runChunkList
          (initPost emptyState
            { filename := fn, fileSize := file.length, contentType := ct,
              title := tt, tags := tg } now uploadId false false true).2
          (p.map (clientReq uploadId file c now))).2
        uploadId false false none []).1.success = true ∧
    mapGet (completePost
        (runChunkList
          (initPost emptyState
            { filename := fn, fileSize := file.length, contentType := ct,
              title := tt, tags := tg } now uploadId false false true).2
          (p.map (clientReq uploadId file c now))).2
        uploadId false false none []).2.files
      (videoPath (uploadId ++ getFileExtension (sanitizeFileName fn))) = some file := by
  have htot2 : 2 ≤ totalChunksOf file c := by
    unfold totalChunksOf ceilDiv
    rw [Nat.le_div_iff_mul_le hc]
    omega
  have hplen : p.length = totalChunksOf file c := by
    simpa using hperm.length_eq
  have hpnodup : p.Nodup := hperm.nodup_iff.mpr (List.nodup_range _)
  have hpmem : ∀ i ∈ p, i < totalChunksOf file c := by
    intro i hi
    exact List.mem_range.mp (hperm.mem_iff.mp hi)
  cases p with
  | nil => simp at hplen; omega
  | cons i0 p1 =>
    rw [c1_init file c fn ct tt tg uploadId now hfn (by omega) (by omega) htt]
    rw [List.map_cons]
    have hrun : (runChunkList
        (c1State (c1Base fn ct tt tg uploadId file.length now) uploadId file c now
          (Int.ofNat (ceilDiv file.length (5 * 1024 * 1024))) [])
        (clientReq uploadId file c now i0 ::
          p1.map (clientReq uploadId file c now))).2 =
        (runChunkList (chunkPost
          (c1State (c1Base fn ct tt tg uploadId file.length now) uploadId file c now
            (Int.ofNat (ceilDiv file.length (5 * 1024 * 1024))) [])
          (clientReq uploadId file c now i0)).2
          (p1.map (clientReq uploadId file c now))).2 := by
      simp [runChunkList]
    rw [hrun]
    rw [c1_step (c1Base fn ct tt tg uploadId file.length now) uploadId file c now
      (Int.ofNat (ceilDiv file.length (5 * 1024 * 1024))) [] i0 hid rfl
      (hpmem i0 (List.mem_cons_self _ _)) (by simp)]
    simp only [List.nil_append]
    rw [c1_fold (c1Base fn ct tt tg uploadId file.length now) uploadId file c now hid rfl
      p1 [i0] (fun j hj => hpmem j (List.mem_cons_of_mem _ hj))
      (by simpa using hpnodup)]
    obtain ⟨fs2, hasm, hget2⟩ := c1_assemble (c1Base fn ct tt tg uploadId file.length now)
      uploadId file c now ([i0] ++ p1) hc (by simpa using hperm)
    have hplen2 : ([i0] ++ p1).length = totalChunksOf file c := by
      simpa using hplen
    have hlen2 : ((([i0] ++ p1).length : Nat) : Int) =
        Int.ofNat (totalChunksOf file c) := by
      rw [hplen2]
      rfl
    have hget : mapGet (c1State (c1Base fn ct tt tg uploadId file.length now) uploadId
        file c now (Int.ofNat (totalChunksOf file c)) ([i0] ++ p1)).uploadSessions
        uploadId = some
        { (c1Base fn ct tt tg uploadId file.length now) with
          chunks := ([i0] ++ p1).map (fun i =>
            (Int.ofNat i, c1Info uploadId file c now i))
          uploadedChunks := ([i0] ++ p1).length
          totalChunks := Int.ofNat (totalChunksOf file c)
          lastActivity := now } := mapGet_cons_self _ _ _
    simp only [completePost, if_neg hid, hget]
    rw [if_neg (not_not_intro hlen2)]
    simp only [runAssembly]
    rw [if_neg (by rw [show (c1Base fn ct tt tg uploadId file.length now).useCloudStorage
      = false from rfl]; simp : ¬ ({ (c1Base fn ct tt tg uploadId file.length now) with
          chunks := ([i0] ++ p1).map (fun i =>
            (Int.ofNat i, c1Info uploadId file c now i))
          uploadedChunks := ([i0] ++ p1).length
          totalChunks := Int.ofNat (totalChunksOf file c)
          lastActivity := now } : Session).useCloudStorage = true)]
    rw [show (c1State (c1Base fn ct tt tg uploadId file.length now) uploadId
        file c now (Int.ofNat (totalChunksOf file c)) ([i0] ++ p1)).files =
      ([i0] ++ p1).map (fun j =>
        (tempPath (chunkFilename uploadId (Int.ofNat j)), sliceFile file c j)) from rfl]
    rw [hasm]
    exact ⟨rfl, hget2⟩

/-- **C1** witness: Scenario A in miniature — a 5-byte file, chunk size 2
(`totalChunks = 3`), chunks submitted out of order as 1, 0, 2; completion
succeeds and stores exactly the original bytes. -/
theorem chunked_upload_roundtrip_witness :
    (completePost
        (runChunkList
          (initPost emptyState
            { filename := "a.mp4", fileSize := 5, contentType := "video/mp4",
              title := "t", tags := "" } 7 "u" false false true).2
          ([1, 0, 2].map (clientReq "u" [10, 20, 30, 40, 50] 2 7))).2
        "u" false false none []).1.success = true ∧
    mapGet (completePost
        (runChunkList
          (initPost emptyState
            { filename := "a.mp4", fileSize := 5, contentType := "video/mp4",
              title := "t", tags := "" } 7 "u" false false true).2
          ([1, 0, 2].map (clientReq "u" [10, 20, 30, 40, 50] 2 7))).2
        "u" false false none []).2.files
      (videoPath ("u" ++ getFileExtension (sanitizeFileName "a.mp4"))) =
      some [10, 20, 30, 40, 50] :=
  chunked_upload_roundtrip [10, 20, 30, 40, 50] 2 "u" "a.mp4" "video/mp4" "t" "" 7
    [1, 0, 2] (by decide) (by decide) (by decide) (by decide) (by decide) (by decide)
    (by decide)
